import Mathlib

/-!
# Verification of the Polymarket Nonce Guard anomaly-detection and alert core

Shallow embedding, in Lean 4, of the detection / alert components of the
`polymarket-nonce-guard` repository:

* `manipulation_detector.py` — order-book snapshots, the five heuristic
  detectors, the per-alert-type cooldown gate (`_can_alert` / `_fire_alert`),
  the bounded snapshot history (`deque(maxlen=HISTORY_SIZE)`), and the
  window-refresh step of the main poll loop (`run`).
* `signal.py` — `make_alert` and the multi-transport `AlertBus.emit` fan-out
  (file append, stdout, in-process subscribers, Unix-socket clients, webhook).

Modelling conventions, stated once here:

* Python floats are modelled as exact rationals (`ℚ`).  All thresholds
  (`0.10`, `0.05`, ...) are the exact decimal values that appear in the
  source text.
* Python `dict` state (`last_alert_time`) is an association list with
  shadowing insert; lookup sees the most recent binding, `get(k, 0)` is
  `(alookup k l).getD 0`.
* Every Python-partial operation (division, negative indexing) is routed
  through `Option` (`safeDiv`, `List.get?`); a detector "raises" exactly
  when its embedded function returns `none`.  The detectors are embedded as
  candidate producers: each returns the ordered list of `Alert` values the
  source passes to `self._fire_alert`, and the cooldown gate / side effects
  of `_fire_alert` are the separate `fireAlert` state transition, exactly as
  the source sequences them.
* The human-readable `message` string of an alert is presentation-only
  (an f-string over the same numbers already present in `data`) and is not
  carried in the embedded alert record.
* The JSONL alert-log file of the detector is modelled as the list of fired
  alert records (each written line is a function of the record alone).
* `AlertBus.emit` performs external I/O whose success is outside the
  program; each fallible delivery is given its outcome as an oracle
  argument (`Bool` per destination / per subscriber / per client), placed
  exactly where the source wraps the operation in `try/except`.  `emit`
  additionally returns the ordered trace of actions it performs, including
  mutex acquire/release events for each `with self._lock:` block, which is
  what the concurrency claims are stated over.
-/

set_option maxRecDepth 8000

namespace NonceGuard

/-! ## Association lists (model of the Python `dict[str, float]`) -/

/-- Lookup in an association list; first binding wins (Python dict lookup). -/
def alookup (k : String) : List (String × ℚ) → Option ℚ
  | [] => none
  | (k', v) :: t => if k = k' then some v else alookup k t

/-- `d[k] = v` on a Python dict, modelled as a shadowing insert. -/
def aset (k : String) (v : ℚ) (l : List (String × ℚ)) : List (String × ℚ) :=
  (k, v) :: l

/-! ## Configuration constants of `manipulation_detector.py` -/

/-- `ALERT_COOLDOWN = 15.0` — min seconds between alerts of same type. -/
def ALERT_COOLDOWN : ℚ := 15

/-- `HISTORY_SIZE = 60` — keep last N orderbook snapshots. -/
def HISTORY_SIZE : Nat := 60

/-- `PRICE_JUMP_THRESHOLD = 0.10`. -/
def PRICE_JUMP_THRESHOLD : ℚ := 0.10

/-- `BTC_MOVE_THRESHOLD_PCT = 0.05`. -/
def BTC_MOVE_THRESHOLD_PCT : ℚ := 0.05

/-- `DEPTH_DROP_PCT = 0.40`. -/
def DEPTH_DROP_PCT : ℚ := 0.40

/-- `DEPTH_DROP_WINDOW = 3`. -/
def DEPTH_DROP_WINDOW : Nat := 3

/-- `DIVERGENCE_THRESHOLD = 0.15`. -/
def DIVERGENCE_THRESHOLD : ℚ := 0.15

/-- `VOLUME_VANISH_THRESHOLD = 50.0`. -/
def VOLUME_VANISH_THRESHOLD : ℚ := 50

/-! ## `BookSnapshot` -/

/-- `@dataclass BookSnapshot` of `manipulation_detector.py`. -/
structure BookSnapshot where
  ts : ℚ
  bid_up : ℚ
  ask_up : ℚ
  bid_down : ℚ
  ask_down : ℚ
  depth_up_bids : ℚ
  depth_up_asks : ℚ
  depth_down_bids : ℚ
  depth_down_asks : ℚ
  btc_price : ℚ
deriving DecidableEq

/-- `BookSnapshot.mid_up`: `(bid+ask)/2` when both quotes are truthy
(nonzero), else whichever is truthy, else `0`
(`self.bid_up or self.ask_up or 0`). -/
def mid_up (s : BookSnapshot) : ℚ :=
  if s.bid_up ≠ 0 ∧ s.ask_up ≠ 0 then (s.bid_up + s.ask_up) / 2
  else if s.bid_up ≠ 0 then s.bid_up
  else s.ask_up

/-- `BookSnapshot.mid_down`, symmetric to `mid_up`. -/
def mid_down (s : BookSnapshot) : ℚ :=
  if s.bid_down ≠ 0 ∧ s.ask_down ≠ 0 then (s.bid_down + s.ask_down) / 2
  else if s.bid_down ≠ 0 then s.bid_down
  else s.ask_down

/-- `BookSnapshot.total_depth`. -/
def total_depth (s : BookSnapshot) : ℚ :=
  s.depth_up_bids + s.depth_up_asks + s.depth_down_bids + s.depth_down_asks

/-! ## Alerts of the detector -/

/-- A value in the open `data` evidence mapping of a detector alert. -/
inductive DVal where
  | num (q : ℚ)
  | str (s : String)
deriving DecidableEq

/-- `@dataclass Alert` of `manipulation_detector.py` (timestamp, type code,
severity, structured evidence; the presentational `message` f-string is not
carried, see the header). -/
structure MAlert where
  ts : ℚ
  alert_type : String
  severity : String
  data : List (String × DVal)
deriving DecidableEq

/-! ## The five detectors, as candidate producers

Each detector returns, inside `Option`, the ordered list of alerts the
source passes to `self._fire_alert`.  `none` marks a run that would raise
in Python (an unguarded division by zero or an out-of-range index); part of
the verification is that `none` is unreachable. -/

/-- Division as Python performs it: raises (here `none`) on a zero divisor. -/
def safeDiv (a b : ℚ) : Option ℚ := if b = 0 then none else some (a / b)

/-- One arm of the loop body of `_check_price_jump` (label `"UP"` or
`"DOWN"`): skip when either mid is falsy, else compare `Δ` against the
thresholds and build the alert. -/
def jumpCand (label : String) (mid_now mid_prev btc_pct : ℚ) (snap : BookSnapshot) :
    List MAlert :=
  if mid_now = 0 ∨ mid_prev = 0 then []
  else
    let delta := |mid_now - mid_prev|
    if PRICE_JUMP_THRESHOLD ≤ delta ∧ btc_pct < BTC_MOVE_THRESHOLD_PCT then
      [{ ts := snap.ts
         alert_type := "PRICE_JUMP_" ++ label
         severity :=
           if (0.20 : ℚ) ≤ delta then "CRITICAL"
           else if (0.15 : ℚ) ≤ delta then "HIGH" else "MEDIUM"
         data :=
           [("token", .str label), ("mid_prev", .num mid_prev),
            ("mid_now", .num mid_now), ("delta", .num delta),
            ("btc_pct_move", .num btc_pct), ("btc", .num snap.btc_price),
            ("direction", .str (if mid_prev < mid_now then "↑" else "↓"))] }]
    else []

/-- `_check_price_jump`: `btc_pct` is
`abs(snap.btc_price - prev.btc_price) / prev.btc_price * 100 if prev.btc_price else 0`,
then both instruments are inspected in order UP, DOWN. -/
def checkPriceJump (snap prev : BookSnapshot) : Option (List MAlert) :=
  (if prev.btc_price = 0 then some 0
   else (safeDiv |snap.btc_price - prev.btc_price| prev.btc_price).map (· * 100)).map
    fun btc_pct =>
      jumpCand "UP" (mid_up snap) (mid_up prev) btc_pct snap ++
      jumpCand "DOWN" (mid_down snap) (mid_down prev) btc_pct snap

/-- `_check_depth_drop`: abstains with fewer than `DEPTH_DROP_WINDOW`
history entries, reads `history[-DEPTH_DROP_WINDOW]`, abstains when the
reference depth is `< 1`, else fires on a relative drop `≥ DEPTH_DROP_PCT`. -/
def checkDepthDrop (hist : List BookSnapshot) (snap : BookSnapshot) :
    Option (List MAlert) :=
  if hist.length < DEPTH_DROP_WINDOW then some []
  else
    match hist.get? (hist.length - DEPTH_DROP_WINDOW) with
    | none => none
    | some ref =>
      if total_depth ref < 1 then some []
      else
        (safeDiv (total_depth ref - total_depth snap) (total_depth ref)).map
          fun drop_pct =>
            if DEPTH_DROP_PCT ≤ drop_pct then
              [{ ts := snap.ts
                 alert_type := "DEPTH_DROP"
                 severity :=
                   if (0.70 : ℚ) ≤ drop_pct then "CRITICAL"
                   else if (0.55 : ℚ) ≤ drop_pct then "HIGH" else "MEDIUM"
                 data :=
                   [("depth_before", .num (total_depth ref)),
                    ("depth_after", .num (total_depth snap)),
                    ("drop_pct", .num drop_pct)] }]
            else []

/-- One side of `_check_volume_vanish`. -/
def vanishCand (label : String) (now_v prev_v ts : ℚ) : List MAlert :=
  let vanished := prev_v - now_v
  if VOLUME_VANISH_THRESHOLD ≤ vanished then
    [{ ts := ts
       alert_type := "VOLUME_VANISH_" ++ label
       severity := if (100 : ℚ) ≤ vanished then "HIGH" else "MEDIUM"
       data :=
         [("side", .str label), ("before", .num prev_v),
          ("after", .num now_v), ("vanished", .num vanished)] }]
  else []

/-- `_check_volume_vanish`: the four sides, in source order. -/
def checkVolumeVanish (snap prev : BookSnapshot) : List MAlert :=
  vanishCand "UP_BIDS" snap.depth_up_bids prev.depth_up_bids snap.ts ++
  vanishCand "UP_ASKS" snap.depth_up_asks prev.depth_up_asks snap.ts ++
  vanishCand "DOWN_BIDS" snap.depth_down_bids prev.depth_down_bids snap.ts ++
  vanishCand "DOWN_ASKS" snap.depth_down_asks prev.depth_down_asks snap.ts

/-- `_check_divergence`: abstains when `start_price` is `None`/falsy or the
reference price is falsy; `elif` makes the two directions exclusive. -/
def checkDivergence (start_price : Option ℚ) (snap : BookSnapshot) :
    Option (List MAlert) :=
  match start_price with
  | none => some []
  | some sp =>
    if sp = 0 ∨ snap.btc_price = 0 then some []
    else
      (safeDiv (snap.btc_price - sp) sp).map fun d =>
        let btc_delta_pct := d * 100
        if (0.03 : ℚ) < btc_delta_pct ∧ mid_up snap ≠ 0 ∧
            mid_up snap < (0.50 : ℚ) - DIVERGENCE_THRESHOLD then
          [{ ts := snap.ts
             alert_type := "DIVERGENCE_UP_CHEAP"
             severity := "HIGH"
             data :=
               [("btc_delta_pct", .num btc_delta_pct),
                ("mid_up", .num (mid_up snap)), ("btc", .num snap.btc_price)] }]
        else if btc_delta_pct < -(0.03 : ℚ) ∧ mid_down snap ≠ 0 ∧
            mid_down snap < (0.50 : ℚ) - DIVERGENCE_THRESHOLD then
          [{ ts := snap.ts
             alert_type := "DIVERGENCE_DOWN_CHEAP"
             severity := "HIGH"
             data :=
               [("btc_delta_pct", .num btc_delta_pct),
                ("mid_down", .num (mid_down snap)), ("btc", .num snap.btc_price)] }]
        else []

/-- One arm of the loop of `_check_spread` (guard: all four quotes truthy;
the division only happens under `spread_prev > 0`). -/
def spreadCand (label : String) (bid ask prev_bid prev_ask ts : ℚ) :
    Option (List MAlert) :=
  if bid = 0 ∨ ask = 0 ∨ prev_bid = 0 ∨ prev_ask = 0 then some []
  else
    let spread_now := ask - bid
    let spread_prev := prev_ask - prev_bid
    if 0 < spread_prev then
      (safeDiv spread_now spread_prev).map fun spread_expansion =>
        if (3 : ℚ) ≤ spread_expansion ∧ (0.10 : ℚ) ≤ spread_now then
          [{ ts := ts
             alert_type := "SPREAD_BLOWOUT_" ++ label
             severity := if (5 : ℚ) ≤ spread_expansion then "HIGH" else "MEDIUM"
             data :=
               [("token", .str label), ("spread_prev", .num spread_prev),
                ("spread_now", .num spread_now),
                ("expansion", .num spread_expansion)] }]
        else []
    else some []

/-- `_check_spread`: UP then DOWN. -/
def checkSpread (snap prev : BookSnapshot) : Option (List MAlert) := do
  let u ← spreadCand "UP" snap.bid_up snap.ask_up prev.bid_up prev.ask_up snap.ts
  let d ← spreadCand "DOWN" snap.bid_down snap.ask_down prev.bid_down prev.ask_down snap.ts
  pure (u ++ d)

/-- `ManipulationDetector.analyze`: with fewer than 2 history entries it
returns immediately (no candidates); otherwise `prev = history[-1]` and the
five detectors run in source order.  The result is the concatenated list of
candidate alerts handed to `_fire_alert`. -/
def analyze (hist : List BookSnapshot) (start_price : Option ℚ)
    (snap : BookSnapshot) : Option (List MAlert) :=
  if hist.length < 2 then some []
  else
    match hist.get? (hist.length - 1) with
    | none => none
    | some prev => do
      let a1 ← checkPriceJump snap prev
      let a2 ← checkDepthDrop hist snap
      let a3 := checkVolumeVanish snap prev
      let a4 ← checkDivergence start_price snap
      let a5 ← checkSpread snap prev
      pure (a1 ++ a2 ++ a3 ++ a4 ++ a5)

/-! ## The cooldown gate (`_can_alert` / `_fire_alert`) -/

/-- The mutable alerting state of `ManipulationDetector`: the
`last_alert_time` dict, `alert_count`, the accumulated `alerts` list, and
the JSONL alert-log file (one record per fired alert). -/
structure DetState where
  lastAlertTime : List (String × ℚ)
  alert_count : Nat
  alerts : List MAlert
  alertLog : List MAlert
deriving DecidableEq

/-- Detector state at construction time. -/
def initDetState : DetState := ⟨[], 0, [], []⟩

/-- `_can_alert`: `last = self.last_alert_time.get(alert_type, 0)` and the
gate compares the wall clock `now` (`time.time()`) against it. -/
def canAlert (st : DetState) (now : ℚ) (ty : String) : Bool :=
  decide (ALERT_COOLDOWN ≤ now - (alookup ty st.lastAlertTime).getD 0)

/-- `_fire_alert`, called at wall-clock time `now`: on suppression it
returns immediately; on admission it records `alert.ts` (not `now`) in
`last_alert_time`, bumps the counter, appends to `alerts` and appends one
record to the JSONL log. -/
def fireAlert (st : DetState) (now : ℚ) (a : MAlert) : DetState :=
  if canAlert st now a.alert_type then
    { lastAlertTime := aset a.alert_type a.ts st.lastAlertTime
      alert_count := st.alert_count + 1
      alerts := st.alerts ++ [a]
      alertLog := st.alertLog ++ [a] }
  else st

/-- Feeding a sequence of candidate alerts through the gate; each list entry
pairs the candidate with the wall-clock time at which `_fire_alert` runs
for it.  Returns the final state and the admitted (fired) alerts in order. -/
def processTrace (st : DetState) : List (MAlert × ℚ) → DetState × List MAlert
  | [] => (st, [])
  | (a, now) :: t =>
    let fired := canAlert st now a.alert_type
    let res := processTrace (fireAlert st now a) t
    (res.1, if fired then a :: res.2 else res.2)

/-! ## The bounded history (`deque(maxlen=HISTORY_SIZE)`) -/

/-- `deque(maxlen=N).append(x)`: append at the newest end, evict from the
oldest end when capacity is exceeded. -/
def dequeAppend (N : Nat) (h : List BookSnapshot) (x : BookSnapshot) :
    List BookSnapshot :=
  let h2 := h ++ [x]
  if N < h2.length then h2.drop (h2.length - N) else h2

/-! ## Window lifecycle (the refresh step of `run`) -/

/-- The fields of `market.Window` that the refresh step of `run` consults. -/
structure Window where
  slug : String
  is_active : Bool
  is_expired : Bool
deriving DecidableEq

/-- The loop-carried state of `run` that the window-refresh step touches. -/
structure RunState where
  window : Option Window
  history : List BookSnapshot
  start_price : Option ℚ
deriving DecidableEq

/-- `window is None or window.is_expired`. -/
def needsNewWindow (st : RunState) : Bool :=
  match st.window with
  | none => true
  | some w => w.is_expired

/-- The window-refresh step of the main loop of `run`: when no window is
loaded or the current one is expired, the freshly fetched window (if any,
and if it reports itself active) replaces it, the start price is recorded
and `detector.history.clear()` runs.  The `Bool` reports whether the
replacement transition happened in this step. -/
def refreshWindow (st : RunState) (fetched : Option Window) (btc : Option ℚ) :
    RunState × Bool :=
  if needsNewWindow st then
    match fetched with
    | some w =>
      if w.is_active then
        ({ window := some w, history := [], start_price := btc }, true)
      else (st, false)
    | none => (st, false)
  else (st, false)

/-! ## JSON values (`signal.py` alerts)

`make_alert` builds a Python dict that `AlertBus.emit` serializes with
`json.dumps` (default separators `", "` and `": "`) and appends, newline
terminated, to the alerts file.  Consumers run `json.loads` per line.  The
value universe is modelled by `Json`: numbers are finite decimals
`m / 10^e` (the floats Python prints in plain decimal notation), strings
are arbitrary, objects keep insertion order as `json.dumps` does. -/

mutual
inductive Json where
  | null : Json
  | bool (b : Bool) : Json
  | num (m : Int) (e : Nat) : Json
  | str (s : String) : Json
  | arr (xs : JsonArr) : Json
  | obj (xs : JsonObj) : Json
inductive JsonArr where
  | nil : JsonArr
  | cons (hd : Json) (tl : JsonArr) : JsonArr
inductive JsonObj where
  | nil : JsonObj
  | cons (k : String) (v : Json) (tl : JsonObj) : JsonObj
end

/-- Opening brace character. -/
def lbrace : Char := Char.ofNat 123

/-- Closing brace character. -/
def rbrace : Char := Char.ofNat 125

/-! ### Decimal digits -/

/-- Digit character for a digit value. -/
def digitChar (d : Nat) : Char := Char.ofNat (48 + d)

/-- Digit value of a character. -/
def digVal (c : Char) : Nat := c.toNat - 48

/-- ASCII decimal digit test. -/
def isDig (c : Char) : Bool := 48 ≤ c.toNat && c.toNat ≤ 57

/-- Decimal digit string of a natural number, most significant first. -/
def natDigits (n : Nat) : List Char :=
  if 0 < n then (Nat.digits 10 n).reverse.map digitChar else ['0']

/-- Numeric value of a digit string (fold as a base-10 reader does). -/
def valD (l : List Char) : Nat :=
  l.foldl (fun a c => 10 * a + digVal c) 0

/-- `k` printed with leading zeros to exactly `e` digits (the fractional
part of a decimal with `e` places). -/
def padDigits (e k : Nat) : List Char :=
  List.replicate (e - (natDigits k).length) '0' ++ natDigits k

/-- Decimal rendering of the non-negative number `n / 10^e`. -/
def printNatNum (n e : Nat) : List Char :=
  if e = 0 then natDigits n
  else natDigits (n / 10 ^ e) ++ '.' :: padDigits e (n % 10 ^ e)

/-- Decimal rendering of `m / 10^e` (sign, then magnitude). -/
def printNum (m : Int) (e : Nat) : List Char :=
  if m < 0 then '-' :: printNatNum m.natAbs e else printNatNum m.natAbs e

/-- Reads an unsigned decimal literal: digits, optionally `.` and more
digits.  Returns mantissa, number of fractional digits, and the rest. -/
def parseNumChars (l : List Char) : Option (Nat × Nat × List Char) :=
  let ds := l.takeWhile isDig
  if ds.isEmpty then none
  else
    match l.dropWhile isDig with
    | [] => some (valD ds, 0, [])
    | c :: r2 =>
      if c = '.' then
        let fs := r2.takeWhile isDig
        if fs.isEmpty then none
        else some (valD ds * 10 ^ fs.length + valD fs, fs.length, r2.dropWhile isDig)
      else some (valD ds, 0, c :: r2)

/-! ### String escaping (`json.dumps` / `json.loads`) -/

/-- Escape of a single character inside a JSON string literal. -/
def escChar (c : Char) : List Char :=
  if c = '"' then ['\\', '"']
  else if c = '\\' then ['\\', '\\']
  else if c = '\n' then ['\\', 'n']
  else if c = '\t' then ['\\', 't']
  else if c = '\r' then ['\\', 'r']
  else [c]

/-- Escape of a character list. -/
def escape : List Char → List Char
  | [] => []
  | c :: t => escChar c ++ escape t

/-- Interpretation of a two-character escape. -/
def unescChar (e : Char) : Option Char :=
  if e = '"' then some '"'
  else if e = '\\' then some '\\'
  else if e = 'n' then some '\n'
  else if e = 't' then some '\t'
  else if e = 'r' then some '\r'
  else none

/-- Reads the body of a JSON string literal up to the closing quote;
returns the unescaped characters and the rest of the input. -/
def parseStrBody : List Char → Option (List Char × List Char)
  | [] => none
  | c :: t =>
    if c = '"' then some ([], t)
    else if c = '\\' then
      match t with
      | [] => none
      | e :: t2 =>
        match unescChar e with
        | none => none
        | some u => (parseStrBody t2).map fun p => (u :: p.1, p.2)
    else (parseStrBody t).map fun p => (c :: p.1, p.2)

/-- Expects a fixed character sequence at the head of the input. -/
def expect : List Char → List Char → Option (List Char)
  | [], l => some l
  | _ :: _, [] => none
  | p :: ps, c :: cs => if c = p then expect ps cs else none

/-! ### Printing (the output of `json.dumps` with default separators) -/

mutual
/-- Serialization of a JSON value, exactly as `json.dumps` renders it. -/
def printJ : Json → List Char
  | .null => 'n' :: ['u', 'l', 'l']
  | .bool true => 't' :: ['r', 'u', 'e']
  | .bool false => 'f' :: ['a', 'l', 's', 'e']
  | .num m e => printNum m e
  | .str s => '"' :: (escape s.data ++ ['"'])
  | .arr xs => '[' :: printArrBody xs
  | .obj xs => lbrace :: printObjBody xs

/-- Array items after `[`: first item then separated tail, or just `]`. -/
def printArrBody : JsonArr → List Char
  | .nil => [']']
  | .cons h t => printJ h ++ printArrTail t

/-- Remaining array items, each preceded by `", "`. -/
def printArrTail : JsonArr → List Char
  | .nil => [']']
  | .cons h t => ',' :: ' ' :: (printJ h ++ printArrTail t)

/-- Object members after the opening brace. -/
def printObjBody : JsonObj → List Char
  | .nil => [rbrace]
  | .cons k v t =>
    '"' :: (escape k.data ++ '"' :: ':' :: ' ' :: (printJ v ++ printObjTail t))

/-- Remaining object members, each preceded by `", "`. -/
def printObjTail : JsonObj → List Char
  | .nil => [rbrace]
  | .cons k v t =>
    ',' :: ' ' :: '"' :: (escape k.data ++ '"' :: ':' :: ' ' :: (printJ v ++ printObjTail t))
end

/-! ### Parsing (`json.loads` on one line of the alerts file) -/

mutual
/-- Parses one JSON value from the head of the input.  `fuel` bounds the
recursion depth; every recursive call spends one unit. -/
def parseJ (fuel : Nat) (l : List Char) : Option (Json × List Char) :=
  match fuel with
  | 0 => none
  | f + 1 =>
    match l with
    | [] => none
    | c :: t =>
      if c = 'n' then (expect ['u', 'l', 'l'] t).map fun r => (.null, r)
      else if c = 't' then (expect ['r', 'u', 'e'] t).map fun r => (.bool true, r)
      else if c = 'f' then (expect ['a', 'l', 's', 'e'] t).map fun r => (.bool false, r)
      else if c = '"' then (parseStrBody t).map fun p => (.str (String.mk p.1), p.2)
      else if c = '[' then (parseArrBody f t).map fun p => (.arr p.1, p.2)
      else if c = lbrace then (parseObjBody f t).map fun p => (.obj p.1, p.2)
      else if c = '-' then
        (parseNumChars t).map fun p => (.num (-(p.1 : Int)) p.2.1, p.2.2)
      else if isDig c then
        (parseNumChars (c :: t)).map fun p => (.num (p.1 : Int) p.2.1, p.2.2)
      else none

/-- Parses array items after `[`. -/
def parseArrBody (fuel : Nat) (l : List Char) : Option (JsonArr × List Char) :=
  match fuel with
  | 0 => none
  | f + 1 =>
    match l with
    | [] => none
    | c :: t =>
      if c = ']' then some (.nil, t)
      else
        match parseJ f (c :: t) with
        | none => none
        | some (v, r) =>
          (parseArrTail f r).map fun p => (.cons v p.1, p.2)

/-- Parses `", "`-separated further array items, or the closing `]`. -/
def parseArrTail (fuel : Nat) (l : List Char) : Option (JsonArr × List Char) :=
  match fuel with
  | 0 => none
  | f + 1 =>
    match l with
    | [] => none
    | c :: t =>
      if c = ']' then some (.nil, t)
      else if c = ',' then
        match t with
        | [] => none
        | c2 :: t2 =>
          if c2 = ' ' then
            match parseJ f t2 with
            | none => none
            | some (v, r) =>
              (parseArrTail f r).map fun p => (.cons v p.1, p.2)
          else none
      else none

/-- Parses object members after the opening brace. -/
def parseObjBody (fuel : Nat) (l : List Char) : Option (JsonObj × List Char) :=
  match fuel with
  | 0 => none
  | f + 1 =>
    match l with
    | [] => none
    | c :: t =>
      if c = rbrace then some (.nil, t)
      else if c = '"' then
        match parseStrBody t with
        | none => none
        | some (k, r) =>
          match r with
          | [] => none
          | c1 :: r1 =>
            if c1 = ':' then
              match r1 with
              | [] => none
              | c2 :: r2 =>
                if c2 = ' ' then
                  match parseJ f r2 with
                  | none => none
                  | some (v, r3) =>
                    (parseObjTail f r3).map fun p => (.cons (String.mk k) v p.1, p.2)
                else none
            else none
      else none

/-- Parses `", "`-separated further object members, or the closing brace. -/
def parseObjTail (fuel : Nat) (l : List Char) : Option (JsonObj × List Char) :=
  match fuel with
  | 0 => none
  | f + 1 =>
    match l with
    | [] => none
    | c :: t =>
      if c = rbrace then some (.nil, t)
      else if c = ',' then
        match t with
        | [] => none
        | c1 :: t1 =>
          if c1 = ' ' then
            match t1 with
            | [] => none
            | c2 :: t2 =>
              if c2 = '"' then
                match parseStrBody t2 with
                | none => none
                | some (k, r) =>
                  match r with
                  | [] => none
                  | c3 :: r1 =>
                    if c3 = ':' then
                      match r1 with
                      | [] => none
                      | c4 :: r2 =>
                        if c4 = ' ' then
                          match parseJ f r2 with
                          | none => none
                          | some (v, r3) =>
                            (parseObjTail f r3).map fun p =>
                              (.cons (String.mk k) v p.1, p.2)
                        else none
                    else none
              else none
          else none
      else none
end

/-- Whitespace as `json.loads` skips it around a document. -/
def isWsChar (c : Char) : Bool :=
  c = ' ' || c = '\n' || c = '\t' || c = '\r'

/-- `json.loads` applied to one line of the alerts file: parse one value
and require only whitespace after it. -/
def parseLine (l : List Char) : Option Json :=
  match parseJ (2 * l.length + 2) l with
  | none => none
  | some (v, r) => if r.all isWsChar then some v else none

mutual
/-- Fuel that `parseJ` needs for a value (one unit per parser call). -/
def fuelJ : Json → Nat
  | .null | .bool _ | .num _ _ | .str _ => 1
  | .arr xs => fuelA xs + 1
  | .obj xs => fuelO xs + 1
/-- Fuel for the items of an array. -/
def fuelA : JsonArr → Nat
  | .nil => 1
  | .cons h t => fuelJ h + fuelA t + 1
/-- Fuel for the members of an object. -/
def fuelO : JsonObj → Nat
  | .nil => 1
  | .cons _ v t => fuelJ v + fuelO t + 1
end

/-- The characters after a printed number must not extend the literal. -/
def numBoundary : List Char → Prop
  | [] => True
  | c :: _ => isDig c = false ∧ c ≠ '.'

/-- Head of the list does not satisfy the scanner predicate. -/
def headFails (p : Char → Bool) : List Char → Prop
  | [] => True
  | c :: _ => p c = false

/-! ## `make_alert` and the file transport -/

/-- `make_alert(code, severity, source, data)`: the standardized alert dict,
in insertion order; `ALERT_VERSION = 1`; the ISO-8601 timestamp string is
produced by the clock and passed in here. -/
def make_alert (code severity source ts : String) (data : Json) : Json :=
  .obj (.cons "version" (.num 1 0)
    (.cons "timestamp" (.str ts)
      (.cons "code" (.str code)
        (.cons "severity" (.str severity)
          (.cons "source" (.str source)
            (.cons "data" data .nil))))))

/-- The newline-delimited record `emit` appends to the alerts file:
`json.dumps(alert) + "\n"`. -/
def fileLine (alert : Json) : List Char := printJ alert ++ ['\n']

/-- Field lookup on a JSON object (first binding wins). -/
def objLookup (k : String) : JsonObj → Option Json
  | .nil => none
  | .cons k' v t => if k = k' then some v else objLookup k t

/-- Field lookup on an alert value. -/
def alertField (k : String) : Json → Option Json
  | .obj xs => objLookup k xs
  | _ => none

/-! ## `AlertBus.emit` as an action trace -/

/-- The bus configuration: `file`, `stdout` flags and the optional webhook
URL (`socket_enabled` only controls the accept loop; delivery depends on
the connected-client list, which is an argument of `emit` below). -/
structure BusConfig where
  file : Bool
  stdoutEnabled : Bool
  webhook_url : Option String
deriving DecidableEq

/-- One observable action of `AlertBus.emit`.  `lockAcquire`/`lockRelease`
delimit each `with self._lock:` block; each delivery attempt records the
outcome the environment gave it (`ok = false` means the Python operation
raised and the `except` arm ran). -/
inductive BusEvent where
  | lockAcquire : BusEvent
  | lockRelease : BusEvent
  | fileAttempt (ok : Bool) : BusEvent
  | stdoutWrite : BusEvent
  | subAttempt (i : Nat) (ok : Bool) : BusEvent
  | sockAttempt (i : Nat) (ok : Bool) : BusEvent
  | webhookAttempt (ok : Bool) : BusEvent
deriving DecidableEq

/-- `if self.webhook_url:` — present and not the empty string. -/
def hasWebhook (cfg : BusConfig) : Bool :=
  match cfg.webhook_url with
  | none => false
  | some u => decide (u ≠ "")

/-- The ordered action trace of one `emit` call, straight from the source:
file block (its own `try`), stdout print, the subscriber loop inside
`with self._lock:` (each callback in its own `try`), `_broadcast_socket`
(early return with no clients; otherwise the send loop runs inside
`with self._lock:` with each `sendall` in its own `try`), then the webhook
POST (its own `try`). -/
def emitEvents (cfg : BusConfig) (subs clients : List Bool)
    (fileOk whOk : Bool) : List BusEvent :=
  (if cfg.file then [.fileAttempt fileOk] else []) ++
  (if cfg.stdoutEnabled then [.stdoutWrite] else []) ++
  ([.lockAcquire] ++ (subs.enum.map fun p => .subAttempt p.1 p.2) ++ [.lockRelease]) ++
  (if clients.isEmpty then []
   else [.lockAcquire] ++ (clients.enum.map fun p => .sockAttempt p.1 p.2) ++ [.lockRelease]) ++
  (if hasWebhook cfg then [.webhookAttempt whOk] else [])

/-- What one `emit` call produces: the returned alert, the action trace,
the file record it appended (if the file transport is on and the write
succeeded) and the surviving socket-client list (failed clients removed). -/
structure EmitResult where
  returned : Json
  events : List BusEvent
  fileAppend : Option (List Char)
  clientsAfter : List Bool

/-- `AlertBus.emit(code, severity, source, data)`.  `subs` and `clients`
give, in list order, the outcome of each subscriber callback and each
client `sendall`; `fileOk` / `whOk` the outcome of the file append and the
webhook POST.  The call is total: every delivery failure is consumed by
the `except` arm the source wraps around that one delivery. -/
def emit (cfg : BusConfig) (subs clients : List Bool) (fileOk whOk : Bool)
    (code severity source ts : String) (data : Json) : EmitResult :=
  let alert := make_alert code severity source ts data
  { returned := alert
    events := emitEvents cfg subs clients fileOk whOk
    fileAppend := if cfg.file && fileOk then some (fileLine alert) else none
    clientsAfter := clients.filter fun b => b }

/-- Pairs each action with whether the bus mutex is held while it runs
(`h` = held on entry). -/
def markHeld (h : Bool) : List BusEvent → List (BusEvent × Bool)
  | [] => []
  | e :: t =>
    match e with
    | .lockAcquire => (e, h) :: markHeld true t
    | .lockRelease => (e, h) :: markHeld false t
    | _ => (e, h) :: markHeld h t

/-- Lock state after running a trace that starts with the lock in state `h`. -/
def heldAfter (h : Bool) : List BusEvent → Bool
  | [] => h
  | e :: t =>
    match e with
    | .lockAcquire => heldAfter true t
    | .lockRelease => heldAfter false t
    | _ => heldAfter h t

/-- Forgets delivery outcomes, keeping which action was attempted. -/
def eraseOk : BusEvent → BusEvent
  | .fileAttempt _ => .fileAttempt true
  | .subAttempt i _ => .subAttempt i true
  | .sockAttempt i _ => .sockAttempt i true
  | .webhookAttempt _ => .webhookAttempt true
  | e => e

/-- The attempts `emit` must make, as a function of the configuration and
the mere number of subscribers and clients — independent of outcomes. -/
def expectedAttempts (cfg : BusConfig) (ns nc : Nat) : List BusEvent :=
  (if cfg.file then [.fileAttempt true] else []) ++
  (if cfg.stdoutEnabled then [.stdoutWrite] else []) ++
  ([.lockAcquire] ++ ((List.range ns).map fun i => .subAttempt i true) ++ [.lockRelease]) ++
  (if nc = 0 then []
   else [.lockAcquire] ++ ((List.range nc).map fun i => .sockAttempt i true) ++ [.lockRelease]) ++
  (if hasWebhook cfg then [.webhookAttempt true] else [])

/-- Socket-write action test. -/
def isSockEvent : BusEvent → Bool
  | .sockAttempt _ _ => true
  | _ => false

/-- Webhook action test. -/
def isWebhookEvent : BusEvent → Bool
  | .webhookAttempt _ => true
  | _ => false

/-- Subscriber-callback action test. -/
def isSubEvent : BusEvent → Bool
  | .subAttempt _ _ => true
  | _ => false

/-- Lock bookkeeping action test. -/
def isLockEvent : BusEvent → Bool
  | .lockAcquire => true
  | .lockRelease => true
  | _ => false

/-- The lock-discipline facts that actually hold of `emit`, per trace
entry: webhook POSTs run outside the mutex, socket writes and subscriber
callbacks run while it is held. -/
def lockQ (p : BusEvent × Bool) : Prop :=
  (isWebhookEvent p.1 = true → p.2 = false) ∧
  (isSockEvent p.1 = true → p.2 = true) ∧
  (isSubEvent p.1 = true → p.2 = true)

/-! ## Derived quantities named by the specification -/

/-- The reference-price move `β = |ref_now − ref_prev| / ref_prev × 100` as
the specification writes it (with the `x / 0 = 0` convention of `ℚ`, which
coincides with the source's `if prev.btc_price else 0` guard). -/
def btcPct (snap prev : BookSnapshot) : ℚ :=
  |snap.btc_price - prev.btc_price| / prev.btc_price * 100

/-- Lookup in the `data` evidence mapping of a detector alert. -/
def dlookup (k : String) : List (String × DVal) → Option DVal
  | [] => none
  | (k', v) :: t => if k = k' then some v else dlookup k t

/-! ## The disputed claims, stated verbatim -/

/-- Claim C2 as stated: the gate admits iff no prior record exists or
`now − last_fired[T] ≥ cooldown`, and on admission records `now`. -/
def c2Claim : Prop :=
  ∀ (st : DetState) (a : MAlert) (now : ℚ),
    (canAlert st now a.alert_type = true ↔
      (alookup a.alert_type st.lastAlertTime = none ∨
        ∃ t, alookup a.alert_type st.lastAlertTime = some t ∧
          ALERT_COOLDOWN ≤ now - t)) ∧
    (canAlert st now a.alert_type = true →
      alookup a.alert_type (fireAlert st now a).lastAlertTime = some now)

/-- Claim C3 as stated: across any candidate sequence fed through the
gate, two admitted alerts of the same type carry timestamps at least the
cooldown apart. -/
def c3Claim : Prop :=
  ∀ tr : List (MAlert × ℚ),
    List.Pairwise
      (fun a b => a.alert_type = b.alert_type → ALERT_COOLDOWN ≤ |a.ts - b.ts|)
      (processTrace initDetState tr).2

/-- Claim C9 as stated: no per-client socket write and no webhook POST
ever runs while the bus mutex is held. -/
def c9Claim : Prop :=
  ∀ (cfg : BusConfig) (subs clients : List Bool) (fileOk whOk : Bool)
    (p : BusEvent × Bool),
    p ∈ markHeld false (emitEvents cfg subs clients fileOk whOk) →
    (isSockEvent p.1 = true ∨ isWebhookEvent p.1 = true) → p.2 = false

/-! ## Concrete sample inputs for witnesses and counterexamples -/

/-- An entirely empty book snapshot. -/
def zeroSnap : BookSnapshot := ⟨0, 0, 0, 0, 0, 0, 0, 0, 0, 0⟩

/-- Snapshot with both UP quotes at `0.40` (mid `0.40`), reference `50000`. -/
def jumpPrev : BookSnapshot := ⟨0, 0.40, 0.40, 0, 0, 10, 10, 10, 10, 50000⟩

/-- Next snapshot with both UP quotes at `0.55` (mid `0.55`), reference
unchanged. -/
def jumpSnap : BookSnapshot := ⟨2, 0.55, 0.55, 0, 0, 10, 10, 10, 10, 50000⟩

/-- The one candidate that `_check_price_jump` builds for
`jumpPrev → jumpSnap`. -/
def jumpAlert : MAlert :=
  { ts := 2
    alert_type := "PRICE_JUMP_UP"
    severity := "HIGH"
    data :=
      [("token", .str "UP"), ("mid_prev", .num 0.40), ("mid_now", .num 0.55),
       ("delta", .num 0.15), ("btc_pct_move", .num 0), ("btc", .num 50000),
       ("direction", .str "↑")] }

/-- A bare candidate alert of type `"T"` with the given timestamp. -/
def alertT (ts : ℚ) : MAlert := ⟨ts, "T", "HIGH", []⟩

/-- Candidate sequence refuting claim C3: the first candidate carries the
stale timestamp `0` but is checked at wall-clock time `100`; the second is
checked a tenth of a second later. -/
def c3BadTrace : List (MAlert × ℚ) := [(alertT 0, 100), (alertT 1, 1001 / 10)]

/-- A well-behaved candidate sequence (each candidate checked at a wall
clock equal to its own timestamp). -/
def c3GoodTrace : List (MAlert × ℚ) := [(alertT 20, 20), (alertT 40, 40)]

/-- A detector state whose type `"X"` last fired at time `10`. -/
def stX : DetState := ⟨[("X", 10)], 1, [], []⟩

/-- Candidate of type `"X"` timestamped `26`. -/
def aAdm : MAlert := ⟨26, "X", "HIGH", []⟩

/-- Candidate of type `"X"` timestamped `20`. -/
def aSupp : MAlert := ⟨20, "X", "LOW", []⟩

/-- An active, unexpired window. -/
def wActive : Window := ⟨"btc-updown-5m", true, false⟩

/-- A run state carrying stale history from the previous epoch. -/
def staleRun : RunState := ⟨none, [zeroSnap], some 5⟩

/-- Snapshot whose timestamp is the given index (for history-fill tests). -/
def mkSnapTs (i : Nat) : BookSnapshot := ⟨i, 0, 0, 0, 0, 0, 0, 0, 0, 0⟩

/-- Sixty distinct snapshots. -/
def xs60 : List BookSnapshot := (List.range 60).map mkSnapTs

/-- A bus with only the socket transport active and one connected client. -/
def sockOnlyCfg : BusConfig := ⟨false, false, none⟩

/-! # Theorems

Helper lemmas first, then one theorem per claim (with its witness or
counterexample where required). -/

/-! ## Association-list lemmas -/

theorem alookup_aset_self (k : String) (v : ℚ) (l : List (String × ℚ)) :
    alookup k (aset k v l) = some v := by
  simp [aset, alookup]

theorem alookup_aset_ne (k k' : String) (v : ℚ) (l : List (String × ℚ))
    (h : k ≠ k') : alookup k (aset k' v l) = alookup k l := by
  simp [aset, alookup, h]

/-- Suppression leaves the state untouched (helper shared by several
claim proofs). -/
theorem fireAlert_of_suppressed (st : DetState) (now : ℚ) (a : MAlert)
    (h : ¬ canAlert st now a.alert_type = true) : fireAlert st now a = st := by
  simp [fireAlert, h]

/-! ## Detector evaluation lemmas -/

theorem btcPct_guard_eq (snap prev : BookSnapshot) :
    (if prev.btc_price = 0 then some 0
     else (safeDiv |snap.btc_price - prev.btc_price| prev.btc_price).map (· * 100)) =
      some (btcPct snap prev) := by
  by_cases h : prev.btc_price = 0
  · simp [h, btcPct, div_zero]
  · simp [h, safeDiv, btcPct]

theorem checkPriceJump_eq (snap prev : BookSnapshot) :
    checkPriceJump snap prev =
      some (jumpCand "UP" (mid_up snap) (mid_up prev) (btcPct snap prev) snap ++
        jumpCand "DOWN" (mid_down snap) (mid_down prev) (btcPct snap prev) snap) := by
  rw [checkPriceJump, btcPct_guard_eq]
  rfl

theorem jumpCand_mem (label : String) (mn mp b : ℚ) (snap : BookSnapshot) (ty : String) :
    (∃ a ∈ jumpCand label mn mp b snap, a.alert_type = ty) ↔
      (¬(mn = 0 ∨ mp = 0) ∧
        (PRICE_JUMP_THRESHOLD ≤ |mn - mp| ∧ b < BTC_MOVE_THRESHOLD_PCT) ∧
        ty = "PRICE_JUMP_" ++ label) := by
  rw [jumpCand]
  split
  · rename_i h; simp [h]
  · rename_i h
    dsimp only
    split
    · rename_i h2
      simp only [List.mem_singleton, h, h2, not_false_iff, true_and]
      constructor
      · rintro ⟨a, rfl, h3⟩; exact h3.symm
      · rintro rfl; exact ⟨_, rfl, rfl⟩
    · rename_i h2; simp [h, h2]

theorem jumpCand_type (label : String) (mn mp b : ℚ) (snap : BookSnapshot) :
    ∀ a ∈ jumpCand label mn mp b snap, a.alert_type = "PRICE_JUMP_" ++ label := by
  rw [jumpCand]
  split
  · simp
  · dsimp only
    split
    · rintro a ha
      rw [List.mem_singleton] at ha
      subst ha
      rfl
    · simp

theorem jumpCand_sev (label : String) (mn mp b : ℚ) (snap : BookSnapshot) :
    ∀ a ∈ jumpCand label mn mp b snap,
      a.severity = (if (0.20 : ℚ) ≤ |mn - mp| then "CRITICAL"
        else if (0.15 : ℚ) ≤ |mn - mp| then "HIGH" else "MEDIUM") := by
  rw [jumpCand]
  split
  · simp
  · dsimp only
    split
    · rintro a ha
      rw [List.mem_singleton] at ha
      subst ha
      rfl
    · simp

theorem checkDepthDrop_isSome (hist : List BookSnapshot) (snap : BookSnapshot) :
    (checkDepthDrop hist snap).isSome = true := by
  rw [checkDepthDrop]
  split
  · rfl
  · split
    · rename_i hle hnone
      have := List.get?_eq_none.mp hnone
      have h3 : (0 : Nat) < DEPTH_DROP_WINDOW := by norm_num [DEPTH_DROP_WINDOW]
      omega
    · rename_i hle ref href
      split
      · rfl
      · rename_i hd
        have hne : total_depth ref ≠ 0 := by
          intro h0
          exact hd (by rw [h0]; norm_num)
        rw [safeDiv, if_neg hne]
        rfl

theorem checkDivergence_isSome (sp : Option ℚ) (snap : BookSnapshot) :
    (checkDivergence sp snap).isSome = true := by
  rw [checkDivergence.eq_def]
  split
  · rfl
  · rename_i v
    split
    · rfl
    · rename_i hz
      push_neg at hz
      rw [safeDiv, if_neg hz.1]
      rfl

theorem spreadCand_isSome (label : String) (bid ask pb pa ts : ℚ) :
    (spreadCand label bid ask pb pa ts).isSome = true := by
  rw [spreadCand]
  dsimp only
  split
  · rfl
  · split
    · rename_i hz hpos
      have : pa - pb ≠ 0 := ne_of_gt hpos
      rw [safeDiv, if_neg this]
      rfl
    · rfl

theorem checkSpread_isSome (snap prev : BookSnapshot) :
    (checkSpread snap prev).isSome = true := by
  rw [checkSpread]
  obtain ⟨u, hu⟩ := Option.isSome_iff_exists.mp
    (spreadCand_isSome "UP" snap.bid_up snap.ask_up prev.bid_up prev.ask_up snap.ts)
  obtain ⟨d, hd⟩ := Option.isSome_iff_exists.mp
    (spreadCand_isSome "DOWN" snap.bid_down snap.ask_down prev.bid_down prev.ask_down snap.ts)
  rw [hu, hd]
  rfl

theorem analyze_isSome (hist : List BookSnapshot) (sp : Option ℚ) (snap : BookSnapshot) :
    (analyze hist sp snap).isSome = true := by
  rw [analyze]
  split
  · rfl
  · split
    · rename_i hge hnone
      have := List.get?_eq_none.mp hnone
      omega
    · rename_i hge prev hprev
      rw [checkPriceJump_eq]
      obtain ⟨l2, h2⟩ := Option.isSome_iff_exists.mp (checkDepthDrop_isSome hist snap)
      obtain ⟨l4, h4⟩ := Option.isSome_iff_exists.mp (checkDivergence_isSome sp snap)
      obtain ⟨l5, h5⟩ := Option.isSome_iff_exists.mp (checkSpread_isSome snap prev)
      rw [h2, h4, h5]
      rfl

/-! ## Deque lemmas -/

theorem foldl_dequeAppend (N : Nat) (xs : List BookSnapshot) :
    xs.foldl (dequeAppend N) [] = xs.drop (xs.length - N) := by
  induction xs using List.reverseRecOn with
  | nil => simp
  | append_singleton l x ih =>
    rw [List.foldl_append, List.foldl_cons, List.foldl_nil, ih, dequeAppend]
    have hlen : (l.drop (l.length - N)).length = l.length - (l.length - N) :=
      List.length_drop _ _
    have happ : l.drop (l.length - N) ++ [x] = (l ++ [x]).drop (l.length - N) :=
      (List.drop_append_of_le_length (by omega)).symm
    have hL : (l.drop (l.length - N) ++ [x]).length = l.length - (l.length - N) + 1 := by
      simp [hlen]
    by_cases hc : l.length < N
    · have h1 : l.length - N = 0 := by omega
      have h3 : (l ++ [x]).length - N = 0 := by
        simp only [List.length_append, List.length_singleton]; omega
      rw [if_neg (by rw [hL]; omega), h3, List.drop_zero, h1, List.drop_zero]
    · have e1 : (l.drop (l.length - N) ++ [x]).length - N = 1 := by rw [hL]; omega
      rw [if_pos (by rw [hL]; omega), e1, happ, List.drop_drop]
      congr 1
      simp only [List.length_append, List.length_singleton]
      omega

/-! ## Gate-trace invariant (for claim C3) -/

theorem processTrace_inv (tr : List (MAlert × ℚ)) :
    ∀ st : DetState, (∀ p ∈ tr, p.2 = p.1.ts) →
      (∀ b ∈ (processTrace st tr).2,
        (alookup b.alert_type st.lastAlertTime).getD 0 + ALERT_COOLDOWN ≤ b.ts) ∧
      List.Pairwise
        (fun a b => a.alert_type = b.alert_type → a.ts + ALERT_COOLDOWN ≤ b.ts)
        (processTrace st tr).2 := by
  have hcool : (0 : ℚ) ≤ ALERT_COOLDOWN := by norm_num [ALERT_COOLDOWN]
  induction tr with
  | nil => intro st h; simp [processTrace]
  | cons p t ih =>
    intro st h
    obtain ⟨a, now⟩ := p
    have hts : now = a.ts := h (a, now) (List.mem_cons_self _ _)
    subst hts
    have hrest : ∀ q ∈ t, q.2 = q.1.ts := fun q hq => h q (List.mem_cons_of_mem _ hq)
    by_cases hc : canAlert st a.ts a.alert_type = true
    · have hstep := ih (fireAlert st a.ts a) hrest
      have hrec : (fireAlert st a.ts a).lastAlertTime =
          aset a.alert_type a.ts st.lastAlertTime := by
        simp [fireAlert, hc]
      have hgate : (alookup a.alert_type st.lastAlertTime).getD 0 + ALERT_COOLDOWN ≤ a.ts := by
        have h2 := of_decide_eq_true hc
        linarith
      constructor
      · intro b hb
        rw [processTrace, if_pos hc] at hb
        rcases List.mem_cons.mp hb with rfl | hb'
        · exact hgate
        · have h1 := hstep.1 b hb'
          rw [hrec] at h1
          by_cases hty : b.alert_type = a.alert_type
          · rw [hty, alookup_aset_self, Option.getD_some] at h1
            rw [hty]
            linarith
          · rw [alookup_aset_ne _ _ _ _ hty] at h1
            exact h1
      · rw [processTrace, if_pos hc]
        refine List.pairwise_cons.mpr ⟨?_, hstep.2⟩
        intro b hb hty
        have h1 := hstep.1 b hb
        rw [hrec, ← hty, alookup_aset_self, Option.getD_some] at h1
        exact h1
    · have hsame : fireAlert st a.ts a = st := fireAlert_of_suppressed st a.ts a hc
      have hstep := ih st hrest
      rw [processTrace, hsame, if_neg hc]
      exact hstep

/-! ## Bus-trace lemmas (for claims C1 and C9) -/

theorem enum_map_fst_range (l : List Bool) (g : Nat → BusEvent) :
    (l.enum.map fun p => g p.1) = (List.range l.length).map g := by
  rw [show (fun p : Nat × Bool => g p.1) = g ∘ Prod.fst from rfl, ← List.map_map,
    List.enum_map_fst]

theorem eraseOk_sub_map (subs : List Bool) :
    ((subs.enum.map fun p => BusEvent.subAttempt p.1 p.2).map eraseOk) =
      (List.range subs.length).map fun i => BusEvent.subAttempt i true := by
  rw [List.map_map]
  exact enum_map_fst_range subs fun i => BusEvent.subAttempt i true

theorem eraseOk_sock_map (clients : List Bool) :
    ((clients.enum.map fun p => BusEvent.sockAttempt p.1 p.2).map eraseOk) =
      (List.range clients.length).map fun i => BusEvent.sockAttempt i true := by
  rw [List.map_map]
  exact enum_map_fst_range clients fun i => BusEvent.sockAttempt i true

theorem markHeld_append (h : Bool) (l1 l2 : List BusEvent) :
    markHeld h (l1 ++ l2) = markHeld h l1 ++ markHeld (heldAfter h l1) l2 := by
  induction l1 generalizing h with
  | nil => rfl
  | cons e t ih =>
    cases e <;> simp only [List.cons_append, markHeld, heldAfter, List.append_eq, ih]

theorem heldAfter_append (h : Bool) (l1 l2 : List BusEvent) :
    heldAfter h (l1 ++ l2) = heldAfter (heldAfter h l1) l2 := by
  induction l1 generalizing h with
  | nil => rfl
  | cons e t ih =>
    cases e <;> simp only [List.cons_append, heldAfter, List.append_eq, ih]

theorem markHeld_noLock (l : List BusEvent) (h : Bool)
    (hl : ∀ e ∈ l, isLockEvent e = false) :
    markHeld h l = l.map (fun e => (e, h)) := by
  induction l with
  | nil => rfl
  | cons e t ih =>
    have he := hl e (List.mem_cons_self _ _)
    have ht : ∀ e ∈ t, isLockEvent e = false := fun x hx => hl x (List.mem_cons_of_mem _ hx)
    cases e <;> simp_all [markHeld, isLockEvent]

theorem heldAfter_noLock (l : List BusEvent) (h : Bool)
    (hl : ∀ e ∈ l, isLockEvent e = false) :
    heldAfter h l = h := by
  induction l with
  | nil => rfl
  | cons e t ih =>
    have he := hl e (List.mem_cons_self _ _)
    have ht : ∀ e ∈ t, isLockEvent e = false := fun x hx => hl x (List.mem_cons_of_mem _ hx)
    cases e <;> simp_all [heldAfter, isLockEvent]

theorem mem_markHeld_append (p : BusEvent × Bool) (h : Bool) (l1 l2 : List BusEvent) :
    p ∈ markHeld h (l1 ++ l2) ↔ p ∈ markHeld h l1 ∨ p ∈ markHeld (heldAfter h l1) l2 := by
  rw [markHeld_append, List.mem_append]

theorem subs_noLock (subs : List Bool) :
    ∀ e ∈ subs.enum.map fun q => BusEvent.subAttempt q.1 q.2, isLockEvent e = false := by
  intro e he
  obtain ⟨q, _, rfl⟩ := List.mem_map.mp he
  rfl

theorem socks_noLock (clients : List Bool) :
    ∀ e ∈ clients.enum.map fun q => BusEvent.sockAttempt q.1 q.2, isLockEvent e = false := by
  intro e he
  obtain ⟨q, _, rfl⟩ := List.mem_map.mp he
  rfl

/-! ## Claim C1 -/

/-- Claim C1: for every alert and every bus configuration, `AlertBus.emit`
attempts delivery to each configured destination independently and returns
the alert to the caller.  The embedded `emit` is a total function whose
per-destination failure oracles are consumed exactly where the source has
`try/except`, so no destination failure escapes; the attempt trace, with
outcomes erased, is `expectedAttempts` — a function of the configuration
and of the *number* of subscribers/clients only, so a failure of one
destination never removes a later (or earlier) attempt; and the returned
value is the unchanged alert. -/
theorem emit_best_effort_fanout (cfg : BusConfig) (subs clients : List Bool)
    (fileOk whOk : Bool) (code severity source ts : String) (data : Json) :
    (emit cfg subs clients fileOk whOk code severity source ts data).returned =
      make_alert code severity source ts data ∧
    (emit cfg subs clients fileOk whOk code severity source ts data).events.map eraseOk =
      expectedAttempts cfg subs.length clients.length := by
  refine ⟨rfl, ?_⟩
  show (emitEvents cfg subs clients fileOk whOk).map eraseOk =
    expectedAttempts cfg subs.length clients.length
  have h1 : ((if cfg.file then [BusEvent.fileAttempt fileOk] else []).map eraseOk) =
      (if cfg.file then [BusEvent.fileAttempt true] else []) := by
    cases cfg.file <;> simp [eraseOk]
  have h2 : ((if cfg.stdoutEnabled then [BusEvent.stdoutWrite] else []).map eraseOk) =
      (if cfg.stdoutEnabled then [BusEvent.stdoutWrite] else []) := by
    cases cfg.stdoutEnabled <;> simp [eraseOk]
  have h3 : (([BusEvent.lockAcquire] ++ (subs.enum.map fun p => BusEvent.subAttempt p.1 p.2) ++
      [BusEvent.lockRelease]).map eraseOk) =
      [BusEvent.lockAcquire] ++
        ((List.range subs.length).map fun i => BusEvent.subAttempt i true) ++
        [BusEvent.lockRelease] := by
    simp only [List.map_append, eraseOk_sub_map, List.map_cons, List.map_nil]
    rfl
  have h4 : ((if clients.isEmpty then []
      else [BusEvent.lockAcquire] ++ (clients.enum.map fun p => BusEvent.sockAttempt p.1 p.2) ++
        [BusEvent.lockRelease]).map eraseOk) =
      (if clients.length = 0 then []
       else [BusEvent.lockAcquire] ++
         ((List.range clients.length).map fun i => BusEvent.sockAttempt i true) ++
         [BusEvent.lockRelease]) := by
    cases clients with
    | nil => simp
    | cons c cs =>
      simp only [List.isEmpty_cons, List.length_cons, if_neg Bool.false_ne_true]
      have hne : ¬ (cs.length + 1 = 0) := by omega
      rw [if_neg hne]
      simp only [List.map_append, eraseOk_sock_map, List.map_cons, List.map_nil]
      rfl
  have h5 : ((if hasWebhook cfg then [BusEvent.webhookAttempt whOk] else []).map eraseOk) =
      (if hasWebhook cfg then [BusEvent.webhookAttempt true] else []) := by
    cases hasWebhook cfg <;> simp [eraseOk]
  rw [emitEvents, expectedAttempts, List.map_append, List.map_append, List.map_append,
    List.map_append, h1, h2, h3, h4, h5]

/-! ## Claim C2 (corrected) -/

/-- Claim C2, counterexample: with no prior record of type `"T"` and
wall-clock `now = 5`, `_can_alert` compares against the dict default `0`
and denies (`5 − 0 < 15`), whereas the claim demands admission whenever no
prior record exists, for every value of `now`. -/
theorem cooldown_admit_counterexample : ¬ c2Claim := by
  intro h
  have h2 : canAlert initDetState 5 (alertT 0).alert_type = true :=
    (h initDetState (alertT 0) 5).1.mpr (Or.inl rfl)
  rw [canAlert] at h2
  norm_num [alookup, initDetState, ALERT_COOLDOWN, alertT] at h2

/-- Claim C2, amended: the gate admits a candidate of type `T` iff
`now − last_fired[T] ≥ cooldown` where a type with no prior record reads
as last fired at time `0` (so admission additionally requires
`now ≥ cooldown`); and on admission it records the candidate's own
timestamp `alert.ts` — not `now` — as the new last-fired time. -/
theorem cooldown_admit_amended (st : DetState) (a : MAlert) (now : ℚ) :
    (canAlert st now a.alert_type = true ↔
      ALERT_COOLDOWN ≤ now - (alookup a.alert_type st.lastAlertTime).getD 0) ∧
    (canAlert st now a.alert_type = true →
      alookup a.alert_type (fireAlert st now a).lastAlertTime = some a.ts) := by
  constructor
  · simp [canAlert]
  · intro h
    simp [fireAlert, h, aset, alookup]

/-- Witness for `cooldown_admit_amended` at a concrete admitted input. -/
theorem cooldown_admit_amended_witness :
    canAlert stX 25 aAdm.alert_type = true ∧
    alookup aAdm.alert_type (fireAlert stX 25 aAdm).lastAlertTime = some aAdm.ts := by
  have h : canAlert stX 25 aAdm.alert_type = true := by
    rw [canAlert]
    norm_num [alookup, stX, aAdm, ALERT_COOLDOWN]
  exact ⟨h, (cooldown_admit_amended stX aAdm 25).2 h⟩

/-! ## Claim C3 (corrected) -/

/-- Claim C3, counterexample: the gate checks `time.time()` but records
`alert.ts`.  Feeding two stale-stamped candidates of the same type at
wall-clock times `100` and `100.1` admits both, and their timestamps `0`
and `1` are only `1` second apart — far less than the 15-second cooldown
the claim asserts for every trace. -/
theorem cooldown_spacing_counterexample : ¬ c3Claim := by
  intro h
  have h2 := h c3BadTrace
  have he : (processTrace initDetState c3BadTrace).2 = [alertT 0, alertT 1] := by
    rw [c3BadTrace, processTrace, processTrace, processTrace]
    norm_num [canAlert, alookup, initDetState, fireAlert, aset, alertT, ALERT_COOLDOWN]
  rw [he] at h2
  have h3 := (List.pairwise_cons.mp h2).1 (alertT 1) (List.mem_singleton.mpr rfl) rfl
  rw [alertT, alertT] at h3
  norm_num [ALERT_COOLDOWN] at h3

/-- Claim C3, amended: provided each candidate is gated at a wall-clock
time equal to its own timestamp (the intended single-clock reading, and
what the poll loop approximates), any two admitted alerts of the same type
carry timestamps at least the cooldown apart. -/
theorem cooldown_spacing_amended (tr : List (MAlert × ℚ))
    (h : ∀ p ∈ tr, p.2 = p.1.ts) :
    List.Pairwise
      (fun a b => a.alert_type = b.alert_type → ALERT_COOLDOWN ≤ |a.ts - b.ts|)
      (processTrace initDetState tr).2 := by
  have hinv := (processTrace_inv tr initDetState h).2
  refine hinv.imp ?_
  intro a b hab hty
  have h1 := hab hty
  have hcool : (0 : ℚ) < ALERT_COOLDOWN := by norm_num [ALERT_COOLDOWN]
  rw [abs_sub_comm, abs_of_nonneg (by linarith)]
  linarith

/-- Witness for `cooldown_spacing_amended` on a concrete two-admission
trace. -/
theorem cooldown_spacing_amended_witness :
    (∀ p ∈ c3GoodTrace, p.2 = p.1.ts) ∧
    List.Pairwise
      (fun a b => a.alert_type = b.alert_type → ALERT_COOLDOWN ≤ |a.ts - b.ts|)
      (processTrace initDetState c3GoodTrace).2 := by
  have h : ∀ p ∈ c3GoodTrace, p.2 = p.1.ts := by
    intro p hp
    simp only [c3GoodTrace, List.mem_cons, List.mem_singleton] at hp
    rcases hp with rfl | rfl | h0
    · rfl
    · rfl
    · cases h0
  exact ⟨h, cooldown_spacing_amended c3GoodTrace h⟩

/-! ## Claim C4 -/

/-- Claim C4: for each instrument with nonzero mid in both snapshots, the
price-jump detector produces a candidate iff
`Δ = |mid_now − mid_prev| ≥ 0.10` and
`β = |ref_now − ref_prev| / ref_prev × 100 < 0.05`, with severity CRITICAL
for `Δ ≥ 0.20`, HIGH for `Δ ≥ 0.15`, else MEDIUM; and the concrete pair of
snapshots with UP mids `0.40 → 0.55` and unchanged reference yields
exactly one HIGH `PRICE_JUMP_UP` candidate whose `delta` evidence field is
`0.15`. -/
theorem price_jump_detector_correct (snap prev : BookSnapshot) :
    (∃ l, checkPriceJump snap prev = some l ∧
      ((mid_up snap ≠ 0 → mid_up prev ≠ 0 →
        ((∃ a ∈ l, a.alert_type = "PRICE_JUMP_UP") ↔
          PRICE_JUMP_THRESHOLD ≤ |mid_up snap - mid_up prev| ∧
            btcPct snap prev < BTC_MOVE_THRESHOLD_PCT)) ∧
       (mid_down snap ≠ 0 → mid_down prev ≠ 0 →
        ((∃ a ∈ l, a.alert_type = "PRICE_JUMP_DOWN") ↔
          PRICE_JUMP_THRESHOLD ≤ |mid_down snap - mid_down prev| ∧
            btcPct snap prev < BTC_MOVE_THRESHOLD_PCT)) ∧
       (∀ a ∈ l, a.alert_type = "PRICE_JUMP_UP" →
         a.severity = (if (0.20 : ℚ) ≤ |mid_up snap - mid_up prev| then "CRITICAL"
           else if (0.15 : ℚ) ≤ |mid_up snap - mid_up prev| then "HIGH" else "MEDIUM")) ∧
       (∀ a ∈ l, a.alert_type = "PRICE_JUMP_DOWN" →
         a.severity = (if (0.20 : ℚ) ≤ |mid_down snap - mid_down prev| then "CRITICAL"
           else if (0.15 : ℚ) ≤ |mid_down snap - mid_down prev| then "HIGH" else "MEDIUM")))) ∧
    (checkPriceJump jumpSnap jumpPrev = some [jumpAlert] ∧
      jumpAlert.severity = "HIGH" ∧
      dlookup "delta" jumpAlert.data = some (.num 0.15)) := by
  have hconc : checkPriceJump jumpSnap jumpPrev = some [jumpAlert] := by
    rw [checkPriceJump_eq]
    have hup : mid_up jumpSnap = 0.55 := by norm_num [mid_up, jumpSnap]
    have hupp : mid_up jumpPrev = 0.40 := by norm_num [mid_up, jumpPrev]
    have hdn : mid_down jumpSnap = 0 := by norm_num [mid_down, jumpSnap]
    have hb : btcPct jumpSnap jumpPrev = 0 := by norm_num [btcPct, jumpSnap, jumpPrev]
    have habs : |(0.55 : ℚ) - 0.40| = 0.15 := by norm_num
    rw [jumpCand, jumpCand, hup, hupp, hdn, hb, habs]
    norm_num [PRICE_JUMP_THRESHOLD, BTC_MOVE_THRESHOLD_PCT, jumpAlert, jumpSnap, jumpPrev]
    rfl
  have hdelta : dlookup "delta" jumpAlert.data = some (.num 0.15) := by
    norm_num [dlookup, jumpAlert]
    rw [if_neg (by decide), if_neg (by decide), if_neg (by decide)]
  refine ⟨⟨_, checkPriceJump_eq snap prev, ?_, ?_, ?_, ?_⟩, hconc, rfl, hdelta⟩
  · intro h1 h2
    have hsplit :
        (∃ a ∈ jumpCand "UP" (mid_up snap) (mid_up prev) (btcPct snap prev) snap ++
            jumpCand "DOWN" (mid_down snap) (mid_down prev) (btcPct snap prev) snap,
          a.alert_type = "PRICE_JUMP_UP") ↔
        (∃ a ∈ jumpCand "UP" (mid_up snap) (mid_up prev) (btcPct snap prev) snap,
          a.alert_type = "PRICE_JUMP_UP") ∨
        (∃ a ∈ jumpCand "DOWN" (mid_down snap) (mid_down prev) (btcPct snap prev) snap,
          a.alert_type = "PRICE_JUMP_UP") := by
      simp [List.mem_append, or_and_right, exists_or]
    rw [hsplit, jumpCand_mem, jumpCand_mem]
    have hne : ¬ ("PRICE_JUMP_UP" = "PRICE_JUMP_" ++ "DOWN") := by decide
    simp only [hne, and_false, or_false]
    constructor
    · rintro ⟨_, hcond, _⟩; exact hcond
    · intro hcond
      exact ⟨not_or.mpr ⟨h1, h2⟩, hcond, rfl⟩
  · intro h1 h2
    have hsplit :
        (∃ a ∈ jumpCand "UP" (mid_up snap) (mid_up prev) (btcPct snap prev) snap ++
            jumpCand "DOWN" (mid_down snap) (mid_down prev) (btcPct snap prev) snap,
          a.alert_type = "PRICE_JUMP_DOWN") ↔
        (∃ a ∈ jumpCand "UP" (mid_up snap) (mid_up prev) (btcPct snap prev) snap,
          a.alert_type = "PRICE_JUMP_DOWN") ∨
        (∃ a ∈ jumpCand "DOWN" (mid_down snap) (mid_down prev) (btcPct snap prev) snap,
          a.alert_type = "PRICE_JUMP_DOWN") := by
      simp [List.mem_append, or_and_right, exists_or]
    rw [hsplit, jumpCand_mem, jumpCand_mem]
    have hne : ¬ ("PRICE_JUMP_DOWN" = "PRICE_JUMP_" ++ "UP") := by decide
    simp only [hne, and_false, false_or]
    constructor
    · rintro ⟨_, hcond, _⟩; exact hcond
    · intro hcond
      exact ⟨not_or.mpr ⟨h1, h2⟩, hcond, rfl⟩
  · intro a ha hty
    rcases List.mem_append.mp ha with hin | hin
    · exact jumpCand_sev "UP" _ _ _ _ a hin
    · have := jumpCand_type "DOWN" _ _ _ _ a hin
      rw [this] at hty
      exact absurd hty (by decide)
  · intro a ha hty
    rcases List.mem_append.mp ha with hin | hin
    · have := jumpCand_type "UP" _ _ _ _ a hin
      rw [this] at hty
      exact absurd hty (by decide)
    · exact jumpCand_sev "DOWN" _ _ _ _ a hin

/-- Witness for `price_jump_detector_correct`: at the concrete snapshot
pair, both mids are nonzero and the UP candidate is produced. -/
theorem price_jump_detector_witness :
    (mid_up jumpSnap ≠ 0 ∧ mid_up jumpPrev ≠ 0) ∧
    (∃ l, checkPriceJump jumpSnap jumpPrev = some l ∧
      ∃ a ∈ l, a.alert_type = "PRICE_JUMP_UP") := by
  have h1 : mid_up jumpSnap ≠ 0 := by norm_num [mid_up, jumpSnap]
  have h2 : mid_up jumpPrev ≠ 0 := by norm_num [mid_up, jumpPrev]
  obtain ⟨⟨l, hl, hiff, _, _, _⟩, _⟩ := price_jump_detector_correct jumpSnap jumpPrev
  refine ⟨⟨h1, h2⟩, l, hl, (hiff h1 h2).mpr ?_⟩
  have hup : mid_up jumpSnap = 0.55 := by norm_num [mid_up, jumpSnap]
  have hupp : mid_up jumpPrev = 0.40 := by norm_num [mid_up, jumpPrev]
  have hb : btcPct jumpSnap jumpPrev = 0 := by norm_num [btcPct, jumpSnap, jumpPrev]
  rw [hup, hupp, hb, show |(0.55 : ℚ) - 0.40| = 0.15 from by norm_num]
  norm_num [PRICE_JUMP_THRESHOLD, BTC_MOVE_THRESHOLD_PCT]

/-! ## Claim C5 -/

/-- Claim C5: whenever the window-refresh step replaces the market window
(no window loaded or the current one expired, and the fetched window is
active), the snapshot history has length `0` immediately after the
transition, and a detector pass over that history abstains — history never
leaks across epochs. -/
theorem window_rollover_clears_history (st : RunState) (fetched : Option Window)
    (btc : Option ℚ) (h : (refreshWindow st fetched btc).2 = true) :
    (refreshWindow st fetched btc).1.history = [] ∧
    (refreshWindow st fetched btc).1.history.length = 0 ∧
    ∀ (sp : Option ℚ) (snap : BookSnapshot),
      analyze (refreshWindow st fetched btc).1.history sp snap = some [] := by
  cases fetched with
  | none => simp [refreshWindow] at h
  | some w =>
    by_cases hn : needsNewWindow st = true
    · by_cases ha : w.is_active = true
      · refine ⟨?_, ?_, fun sp snap => ?_⟩ <;> simp [refreshWindow, hn, ha, analyze]
      · simp [refreshWindow, hn, ha] at h
    · simp [refreshWindow, hn] at h

/-- Witness for `window_rollover_clears_history` on a concrete rollover. -/
theorem window_rollover_witness :
    (refreshWindow staleRun (some wActive) (some 100)).2 = true ∧
    (refreshWindow staleRun (some wActive) (some 100)).1.history = [] := by
  have h : (refreshWindow staleRun (some wActive) (some 100)).2 = true := by
    simp [refreshWindow, needsNewWindow, staleRun, wActive]
  exact ⟨h, (window_rollover_clears_history staleRun (some wActive) (some 100) h).1⟩

/-! ## Claim C6 -/

/-- Claim C6: the history deque never exceeds its capacity
`HISTORY_SIZE = 60`; after `60 + k` appends to an initially empty history
its length is exactly `60` and the `k` oldest appended snapshots are gone,
the remainder being the `60` newest in insertion order (FIFO eviction). -/
theorem history_capacity_fifo (xs : List BookSnapshot) :
    (xs.foldl (dequeAppend HISTORY_SIZE) []).length ≤ HISTORY_SIZE ∧
    ∀ k, xs.length = HISTORY_SIZE + k →
      xs.foldl (dequeAppend HISTORY_SIZE) [] = xs.drop k ∧
      (xs.foldl (dequeAppend HISTORY_SIZE) []).length = HISTORY_SIZE := by
  have h := foldl_dequeAppend HISTORY_SIZE xs
  constructor
  · rw [h, List.length_drop]; omega
  · intro k hk
    constructor
    · rw [h, hk]; congr 1; omega
    · rw [h, List.length_drop]; omega

/-- Witness for `history_capacity_fifo` at sixty concrete appends. -/
theorem history_capacity_witness :
    xs60.length = HISTORY_SIZE + 0 ∧
    xs60.foldl (dequeAppend HISTORY_SIZE) [] = xs60.drop 0 := by
  have h : xs60.length = HISTORY_SIZE + 0 := by simp [xs60, HISTORY_SIZE]
  exact ⟨h, ((history_capacity_fifo xs60).2 0 h).1⟩

/-! ## Claim C7 -/

/-- Claim C7: the full detector pass is total — for every history, start
price and snapshot (including all-zero fields and absent start price),
`analyze` returns a value rather than raising; with fewer than 2 history
entries it produces no candidates at all, and depth-drop alone also
abstains below its window of `DEPTH_DROP_WINDOW = 3` entries. -/
theorem analyze_never_raises (hist : List BookSnapshot) (sp : Option ℚ)
    (snap : BookSnapshot) :
    (∃ l, analyze hist sp snap = some l) ∧
    (hist.length < 2 → analyze hist sp snap = some []) ∧
    (hist.length < DEPTH_DROP_WINDOW → checkDepthDrop hist snap = some []) := by
  refine ⟨Option.isSome_iff_exists.mp (analyze_isSome hist sp snap), ?_, ?_⟩
  · intro h
    rw [analyze, if_pos h]
  · intro h
    rw [checkDepthDrop, if_pos h]

/-- Witness for `analyze_never_raises` on the empty history and the
all-zero snapshot. -/
theorem analyze_never_raises_witness :
    (([] : List BookSnapshot).length < 2) ∧ analyze [] none zeroSnap = some [] :=
  ⟨by norm_num, (analyze_never_raises [] none zeroSnap).2.1 (by norm_num)⟩

/-! ## Claim C9 (corrected) -/

/-- Claim C9, counterexample: with one connected socket client, the
`sendall` for that client runs while the bus mutex is held —
`_broadcast_socket` iterates the client list inside `with self._lock:`,
contradicting the claim that socket writes never happen under the lock. -/
theorem emit_lock_discipline_counterexample : ¬ c9Claim := by
  intro h
  have h2 := h sockOnlyCfg [] [true] true true (BusEvent.sockAttempt 0 true, true)
    (by decide) (Or.inl rfl)
  cases h2

/-- Claim C9, amended: in every `emit` trace the webhook POST runs with
the bus mutex released, but each per-client socket write and each
subscriber callback runs while the mutex is held — the lists are iterated
under the lock, not snapshotted and iterated outside it. -/
theorem emit_lock_discipline_amended (cfg : BusConfig) (subs clients : List Bool)
    (fileOk whOk : Bool) :
    ∀ p ∈ markHeld false (emitEvents cfg subs clients fileOk whOk), lockQ p := by
  intro p hp
  rw [emitEvents] at hp
  simp only [List.append_assoc] at hp
  rw [mem_markHeld_append] at hp
  rcases hp with hp | hp
  · cases hf : cfg.file
    · rw [hf, if_neg Bool.false_ne_true] at hp; cases hp
    · rw [hf, if_pos rfl] at hp
      simp only [markHeld] at hp
      rcases List.mem_cons.mp hp with rfl | hp'
      · exact ⟨fun h => Bool.noConfusion h, fun h => Bool.noConfusion h,
          fun h => Bool.noConfusion h⟩
      · cases hp'
  have hA : heldAfter false (if cfg.file then [BusEvent.fileAttempt fileOk] else []) = false := by
    cases cfg.file <;> simp [heldAfter]
  rw [hA, mem_markHeld_append] at hp
  rcases hp with hp | hp
  · cases hs : cfg.stdoutEnabled
    · rw [hs, if_neg Bool.false_ne_true] at hp; cases hp
    · rw [hs, if_pos rfl] at hp
      simp only [markHeld] at hp
      rcases List.mem_cons.mp hp with rfl | hp'
      · exact ⟨fun h => Bool.noConfusion h, fun h => Bool.noConfusion h,
          fun h => Bool.noConfusion h⟩
      · cases hp'
  have hB : heldAfter false (if cfg.stdoutEnabled then [BusEvent.stdoutWrite] else []) =
      false := by
    cases cfg.stdoutEnabled <;> simp [heldAfter]
  rw [hB, mem_markHeld_append] at hp
  rcases hp with hp | hp
  · simp only [markHeld] at hp
    rcases List.mem_cons.mp hp with rfl | hp'
    · exact ⟨fun h => Bool.noConfusion h, fun h => Bool.noConfusion h,
        fun h => Bool.noConfusion h⟩
    · cases hp'
  rw [show heldAfter false [BusEvent.lockAcquire] = true from rfl,
    mem_markHeld_append] at hp
  rcases hp with hp | hp
  · rw [markHeld_noLock _ true (subs_noLock subs)] at hp
    obtain ⟨e, he, rfl⟩ := List.mem_map.mp hp
    obtain ⟨q, _, rfl⟩ := List.mem_map.mp he
    exact ⟨fun h => Bool.noConfusion h, fun h => Bool.noConfusion h, fun _ => rfl⟩
  rw [heldAfter_noLock _ true (subs_noLock subs), mem_markHeld_append] at hp
  rcases hp with hp | hp
  · simp only [markHeld] at hp
    rcases List.mem_cons.mp hp with rfl | hp'
    · exact ⟨fun h => Bool.noConfusion h, fun h => Bool.noConfusion h,
        fun h => Bool.noConfusion h⟩
    · cases hp'
  rw [show heldAfter true [BusEvent.lockRelease] = false from rfl,
    mem_markHeld_append] at hp
  rcases hp with hp | hp
  · cases hcl : clients.isEmpty
    · rw [hcl, if_neg Bool.false_ne_true] at hp
      rw [mem_markHeld_append] at hp
      rcases hp with hp | hp
      · simp only [markHeld] at hp
        rcases List.mem_cons.mp hp with rfl | hp'
        · exact ⟨fun h => Bool.noConfusion h, fun h => Bool.noConfusion h,
            fun h => Bool.noConfusion h⟩
        · cases hp'
      · rw [show heldAfter false [BusEvent.lockAcquire] = true from rfl,
          mem_markHeld_append, markHeld_noLock _ true (socks_noLock clients),
          heldAfter_noLock _ true (socks_noLock clients)] at hp
        rcases hp with hp | hp
        · obtain ⟨e, he, rfl⟩ := List.mem_map.mp hp
          obtain ⟨q, _, rfl⟩ := List.mem_map.mp he
          exact ⟨fun h => Bool.noConfusion h, fun _ => rfl, fun h => Bool.noConfusion h⟩
        · simp only [markHeld] at hp
          rcases List.mem_cons.mp hp with rfl | hp'
          · exact ⟨fun h => Bool.noConfusion h, fun h => Bool.noConfusion h,
              fun h => Bool.noConfusion h⟩
          · cases hp'
    · rw [hcl, if_pos rfl] at hp; cases hp
  · have hD : heldAfter false (if clients.isEmpty then []
        else [BusEvent.lockAcquire] ++
          ((clients.enum.map fun q => BusEvent.sockAttempt q.1 q.2) ++
            [BusEvent.lockRelease])) = false := by
      cases hcl : clients.isEmpty
      · rw [if_neg Bool.false_ne_true]
        rw [show heldAfter false ([BusEvent.lockAcquire] ++
            ((clients.enum.map fun q => BusEvent.sockAttempt q.1 q.2) ++
              [BusEvent.lockRelease])) =
          heldAfter true ((clients.enum.map fun q => BusEvent.sockAttempt q.1 q.2) ++
            [BusEvent.lockRelease]) from rfl]
        rw [heldAfter_append, heldAfter_noLock _ true (socks_noLock clients)]
        rfl
      · rw [if_pos rfl]; rfl
    rw [hD] at hp
    cases hw : hasWebhook cfg
    · rw [hw, if_neg Bool.false_ne_true] at hp; cases hp
    · rw [hw, if_pos rfl] at hp
      simp only [markHeld] at hp
      rcases List.mem_cons.mp hp with rfl | hp'
      · exact ⟨fun _ => rfl, fun h => Bool.noConfusion h, fun h => Bool.noConfusion h⟩
      · cases hp'

/-- Witness for `emit_lock_discipline_amended` at the concrete
one-client trace. -/
theorem emit_lock_discipline_witness :
    (BusEvent.sockAttempt 0 true, true) ∈
      markHeld false (emitEvents sockOnlyCfg [] [true] true true) ∧
    (BusEvent.sockAttempt 0 true, true).2 = true := by
  have hm : (BusEvent.sockAttempt 0 true, true) ∈
      markHeld false (emitEvents sockOnlyCfg [] [true] true true) := by decide
  exact ⟨hm,
    (emit_lock_discipline_amended sockOnlyCfg [] [true] true true _ hm).2.1 rfl⟩

/-! ## Claim C10 -/

/-- Claim C10: a candidate suppressed by the cooldown gate is a complete
no-op on the detector's observable state — the last-fired map, the alert
counter, the accumulated alerts list and the JSONL alert-log file are all
unchanged (state equality), so nothing is delivered anywhere. -/
theorem suppressed_fire_is_noop (st : DetState) (now : ℚ) (a : MAlert)
    (h : canAlert st now a.alert_type = false) :
    fireAlert st now a = st := by
  simp [fireAlert, h]

/-- Witness for `suppressed_fire_is_noop`: type `"X"` fired at `10`, a new
candidate arrives at wall-clock `20 < 10 + 15`. -/
theorem suppressed_fire_noop_witness :
    canAlert stX 20 aSupp.alert_type = false ∧ fireAlert stX 20 aSupp = stX := by
  have h : canAlert stX 20 aSupp.alert_type = false := by
    rw [canAlert]
    norm_num [alookup, stX, aSupp, ALERT_COOLDOWN]
  exact ⟨h, suppressed_fire_is_noop stX 20 aSupp h⟩

/-! ## Claim C8: serialization round trip -/


theorem digitChar_digVal : ∀ d : Nat, d < 10 → digVal (digitChar d) = d := by decide

theorem digitChar_isDig : ∀ d : Nat, d < 10 → isDig (digitChar d) = true := by decide

theorem natDigits_ne_nil (n : Nat) : natDigits n ≠ [] := by
  rw [natDigits]
  split
  · rename_i h
    have hd : Nat.digits 10 n ≠ [] := Nat.digits_ne_nil_iff_ne_zero.mpr (by omega)
    simp [hd]
  · simp

theorem natDigits_all_dig (n : Nat) : ∀ c ∈ natDigits n, isDig c = true := by
  rw [natDigits]
  split
  · intro c hc
    rw [List.mem_map] at hc
    obtain ⟨d, hd, rfl⟩ := hc
    rw [List.mem_reverse] at hd
    exact digitChar_isDig d (Nat.digits_lt_base (by norm_num) hd)
  · intro c hc
    rw [List.mem_singleton] at hc
    subst hc
    decide

theorem valD_aux (ds : List Nat) (h : ∀ d ∈ ds, d < 10) :
    ∀ a : Nat, List.foldl (fun a c => 10 * a + digVal c) a ((ds.map digitChar).reverse) =
      a * 10 ^ ds.length + Nat.ofDigits 10 ds := by
  induction ds with
  | nil => intro a; simp [Nat.ofDigits]
  | cons d t ih =>
    intro a
    have hd : d < 10 := h d (List.mem_cons_self _ _)
    have ht : ∀ x ∈ t, x < 10 := fun x hx => h x (List.mem_cons_of_mem _ hx)
    simp only [List.map_cons, List.reverse_cons, List.foldl_append, List.foldl_cons,
      List.foldl_nil, ih ht]
    rw [digitChar_digVal d hd, Nat.ofDigits_cons, List.length_cons, pow_succ]
    ring

theorem valD_natDigits (n : Nat) : valD (natDigits n) = n := by
  rw [natDigits]
  split
  · rename_i h
    rw [valD, show (Nat.digits 10 n).reverse.map digitChar =
      ((Nat.digits 10 n).map digitChar).reverse from List.map_reverse _ _]
    rw [valD_aux _ (fun d hd => Nat.digits_lt_base (by norm_num) hd) 0]
    simp [Nat.ofDigits_digits]
  · rename_i h
    have hn : n = 0 := by omega
    subst hn
    rfl

theorem natDigits_len_le (k e : Nat) (hk : k < 10 ^ e) (he : 0 < e) :
    (natDigits k).length ≤ e := by
  rw [natDigits]
  split
  · rename_i h
    have h0 : k ≠ 0 := by omega
    rw [List.length_map, List.length_reverse]
    rw [Nat.digits_len 10 k (by norm_num) h0]
    have := (Nat.lt_pow_iff_log_lt (by norm_num : 1 < 10) h0).mp hk
    omega
  · simpa using he

theorem padDigits_length (k e : Nat) (hk : k < 10 ^ e) (he : 0 < e) :
    (padDigits e k).length = e := by
  rw [padDigits, List.length_append, List.length_replicate]
  have := natDigits_len_le k e hk he
  omega

theorem padDigits_all_dig (k e : Nat) : ∀ c ∈ padDigits e k, isDig c = true := by
  intro c hc
  rw [padDigits, List.mem_append] at hc
  rcases hc with hc | hc
  · rw [List.eq_of_mem_replicate hc]
    decide
  · exact natDigits_all_dig k c hc

theorem padDigits_ne_nil (k e : Nat) : padDigits e k ≠ [] := by
  rw [padDigits]
  intro h
  rcases List.append_eq_nil.mp h with ⟨_, h2⟩
  exact natDigits_ne_nil k h2

theorem valD_padDigits (k e : Nat) : valD (padDigits e k) = k := by
  rw [padDigits, valD, List.foldl_append]
  have hz : List.foldl (fun a c => 10 * a + digVal c) 0
      (List.replicate (e - (natDigits k).length) '0') = 0 := by
    generalize e - (natDigits k).length = z
    induction z with
    | zero => rfl
    | succ m ih => rw [List.replicate_succ, List.foldl_cons]; simpa using ih
  rw [hz]
  exact valD_natDigits k

theorem takeWhile_all_append (p : Char → Bool) (a b : List Char)
    (ha : ∀ c ∈ a, p c = true) (hb : headFails p b) :
    (a ++ b).takeWhile p = a := by
  induction a with
  | nil =>
    simp only [List.nil_append]
    cases b with
    | nil => rfl
    | cons c t =>
      rw [List.takeWhile_cons]
      simp [headFails] at hb
      simp [hb]
  | cons c t ih =>
    have hc := ha c (List.mem_cons_self _ _)
    have ht : ∀ x ∈ t, p x = true := fun x hx => ha x (List.mem_cons_of_mem _ hx)
    rw [List.cons_append, List.takeWhile_cons, hc]
    simp [ih ht]

theorem dropWhile_all_append (p : Char → Bool) (a b : List Char)
    (ha : ∀ c ∈ a, p c = true) (hb : headFails p b) :
    (a ++ b).dropWhile p = b := by
  induction a with
  | nil =>
    simp only [List.nil_append]
    cases b with
    | nil => rfl
    | cons c t =>
      rw [List.dropWhile_cons]
      simp [headFails] at hb
      simp [hb]
  | cons c t ih =>
    have hc := ha c (List.mem_cons_self _ _)
    have ht : ∀ x ∈ t, p x = true := fun x hx => ha x (List.mem_cons_of_mem _ hx)
    rw [List.cons_append, List.dropWhile_cons, hc]
    simp [ih ht]

theorem numBoundary_headFails (rest : List Char) (h : numBoundary rest) :
    headFails isDig rest := by
  cases rest with
  | nil => trivial
  | cons c t => exact h.1

theorem parseNumChars_print (n e : Nat) (rest : List Char) (hrest : numBoundary rest) :
    parseNumChars (printNatNum n e ++ rest) = some (n, e, rest) := by
  rw [printNatNum]
  split
  · -- e = 0
    rename_i he
    subst he
    rw [parseNumChars]
    rw [takeWhile_all_append isDig _ rest (natDigits_all_dig n) (numBoundary_headFails rest hrest)]
    rw [dropWhile_all_append isDig _ rest (natDigits_all_dig n) (numBoundary_headFails rest hrest)]
    have hne : (natDigits n).isEmpty = false := by
      cases hh : natDigits n with
      | nil => exact absurd hh (natDigits_ne_nil n)
      | cons c t => rfl
    rw [hne]
    simp only [Bool.false_eq_true, if_false, if_neg]
    cases rest with
    | nil => rw [valD_natDigits]
    | cons c t =>
      have hc : ¬ (c = '.') := hrest.2
      simp only [if_neg hc]
      rw [valD_natDigits]
  · -- e > 0
    rename_i he
    have he' : 0 < e := Nat.pos_of_ne_zero he
    have hassoc : (natDigits (n / 10 ^ e) ++ '.' :: padDigits e (n % 10 ^ e)) ++ rest =
        natDigits (n / 10 ^ e) ++ ('.' :: (padDigits e (n % 10 ^ e) ++ rest)) := by
      simp [List.append_assoc]
    rw [hassoc, parseNumChars]
    have hfails : headFails isDig ('.' :: (padDigits e (n % 10 ^ e) ++ rest)) := by
      simp [headFails, isDig]
    rw [takeWhile_all_append isDig _ _ (natDigits_all_dig _) hfails]
    rw [dropWhile_all_append isDig _ _ (natDigits_all_dig _) hfails]
    have hne : (natDigits (n / 10 ^ e)).isEmpty = false := by
      cases hh : natDigits (n / 10 ^ e) with
      | nil => exact absurd hh (natDigits_ne_nil _)
      | cons c t => rfl
    rw [hne]
    simp only [Bool.false_eq_true, if_false, if_pos rfl]
    have hmod : n % 10 ^ e < 10 ^ e := Nat.mod_lt _ (Nat.pos_pow_of_pos e (by norm_num))
    rw [takeWhile_all_append isDig _ rest (padDigits_all_dig _ _) (numBoundary_headFails rest hrest)]
    rw [dropWhile_all_append isDig _ rest (padDigits_all_dig _ _) (numBoundary_headFails rest hrest)]
    have hpne : (padDigits e (n % 10 ^ e)).isEmpty = false := by
      cases hh : padDigits e (n % 10 ^ e) with
      | nil => exact absurd hh (padDigits_ne_nil _ _)
      | cons c t => rfl
    rw [hpne]
    simp only [Bool.false_eq_true, if_false]
    rw [valD_natDigits, valD_padDigits, padDigits_length _ _ hmod he']
    have hdm : n / 10 ^ e * 10 ^ e + n % 10 ^ e = n := by
      rw [Nat.mul_comm]
      exact Nat.div_add_mod n (10 ^ e)
    rw [if_pos trivial, hdm]

theorem expect_append (pat l : List Char) : expect pat (pat ++ l) = some l := by
  induction pat with
  | nil => rfl
  | cons c t ih => rw [List.cons_append, expect, if_pos rfl, ih]

theorem string_mk_data (s : String) : String.mk s.data = s := rfl

theorem parseStrBody_escape (s rest : List Char) :
    parseStrBody (escape s ++ '"' :: rest) = some (s, rest) := by
  induction s with
  | nil =>
    rw [escape, List.nil_append, parseStrBody.eq_def]
    dsimp only
    rw [if_pos rfl]
  | cons c t ih =>
    rw [escape, List.append_assoc]
    by_cases h1 : c = '"'
    · subst h1
      rw [show escChar '"' ++ (escape t ++ '"' :: rest) =
        '\\' :: '"' :: (escape t ++ '"' :: rest) from rfl]
      rw [parseStrBody.eq_def]
      dsimp only
      rw [if_neg (by decide), if_pos rfl]
      rw [show unescChar '"' = some '"' from rfl]
      dsimp only
      rw [ih]
      rfl
    · by_cases h2 : c = '\\'
      · subst h2
        rw [show escChar '\\' ++ (escape t ++ '"' :: rest) =
          '\\' :: '\\' :: (escape t ++ '"' :: rest) from rfl]
        rw [parseStrBody.eq_def]
        dsimp only
        rw [if_neg (by decide), if_pos rfl]
        rw [show unescChar '\\' = some '\\' from rfl]
        dsimp only
        rw [ih]
        rfl
      · by_cases h3 : c = '\n'
        · subst h3
          rw [show escChar '\n' ++ (escape t ++ '"' :: rest) =
            '\\' :: 'n' :: (escape t ++ '"' :: rest) from rfl]
          rw [parseStrBody.eq_def]
          dsimp only
          rw [if_neg (by decide), if_pos rfl]
          rw [show unescChar 'n' = some '\n' from rfl]
          dsimp only
          rw [ih]
          rfl
        · by_cases h4 : c = '\t'
          · subst h4
            rw [show escChar '\t' ++ (escape t ++ '"' :: rest) =
              '\\' :: 't' :: (escape t ++ '"' :: rest) from rfl]
            rw [parseStrBody.eq_def]
            dsimp only
            rw [if_neg (by decide), if_pos rfl]
            rw [show unescChar 't' = some '\t' from rfl]
            dsimp only
            rw [ih]
            rfl
          · by_cases h5 : c = '\r'
            · subst h5
              rw [show escChar '\r' ++ (escape t ++ '"' :: rest) =
                '\\' :: 'r' :: (escape t ++ '"' :: rest) from rfl]
              rw [parseStrBody.eq_def]
              dsimp only
              rw [if_neg (by decide), if_pos rfl]
              rw [show unescChar 'r' = some '\r' from rfl]
              dsimp only
              rw [ih]
              rfl
            · rw [escChar, if_neg h1, if_neg h2, if_neg h3, if_neg h4, if_neg h5,
                List.singleton_append]
              rw [parseStrBody.eq_def]
              dsimp only
              rw [if_neg h1, if_neg h2, ih]
              rfl

theorem fuelJ_pos (v : Json) : 1 ≤ fuelJ v := by
  cases v <;> simp [fuelJ]

theorem fuelA_pos (xs : JsonArr) : 1 ≤ fuelA xs := by
  cases xs <;> simp [fuelA]

theorem fuelO_pos (xs : JsonObj) : 1 ≤ fuelO xs := by
  cases xs <;> simp [fuelO]

theorem printNatNum_head (n e : Nat) :
    ∃ c t, printNatNum n e = c :: t ∧ isDig c = true := by
  rw [printNatNum]
  have hd := natDigits_all_dig (if e = 0 then n else n / 10 ^ e)
  split
  · cases hh : natDigits n with
    | nil => exact absurd hh (natDigits_ne_nil n)
    | cons c t =>
      exact ⟨c, t, rfl, natDigits_all_dig n c (hh ▸ List.mem_cons_self _ _)⟩
  · cases hh : natDigits (n / 10 ^ e) with
    | nil => exact absurd hh (natDigits_ne_nil _)
    | cons c t =>
      refine ⟨c, t ++ '.' :: padDigits e (n % 10 ^ e), ?_, ?_⟩
      · simp [hh]
      · exact natDigits_all_dig _ c (hh ▸ List.mem_cons_self _ _)

theorem isDig_not_lit (c : Char) (h : isDig c = true) :
    c ≠ 'n' ∧ c ≠ 't' ∧ c ≠ 'f' ∧ c ≠ '"' ∧ c ≠ '[' ∧ c ≠ lbrace ∧ c ≠ '-' ∧ c ≠ ']' := by
  refine ⟨?_, ?_, ?_, ?_, ?_, ?_, ?_, ?_⟩ <;> (intro heq; subst heq; revert h; decide)

/-- Heads that a printed JSON value can start with are never `]`, `,` or
the closing brace, and never fail the array-item dispatch. -/
theorem printJ_head (v : Json) :
    ∃ c t, printJ v = c :: t ∧ c ≠ ']' := by
  cases v with
  | null => exact ⟨'n', _, rfl, by decide⟩
  | bool b =>
    cases b
    · exact ⟨'f', _, rfl, by decide⟩
    · exact ⟨'t', _, rfl, by decide⟩
  | str s => exact ⟨'"', _, rfl, by decide⟩
  | arr xs => exact ⟨'[', _, rfl, by decide⟩
  | obj xs => exact ⟨lbrace, _, rfl, by decide⟩
  | num m e =>
    rw [show printJ (Json.num m e) = printNum m e from rfl, printNum]
    by_cases hm : m < 0
    · rw [if_pos hm]
      exact ⟨'-', _, rfl, by decide⟩
    · rw [if_neg hm]
      obtain ⟨c, t, hct, hdig⟩ := printNatNum_head m.natAbs e
      exact ⟨c, t, hct, (isDig_not_lit c hdig).2.2.2.2.2.2.2⟩

theorem printArrTail_numBoundary (t : JsonArr) (r : List Char) :
    numBoundary (printArrTail t ++ r) := by
  cases t with
  | nil => exact ⟨by decide, by decide⟩
  | cons h t2 => exact ⟨by decide, by decide⟩

theorem printObjTail_numBoundary (t : JsonObj) (r : List Char) :
    numBoundary (printObjTail t ++ r) := by
  cases t with
  | nil => exact ⟨by decide, by decide⟩
  | cons k v t2 => exact ⟨by decide, by decide⟩

mutual
theorem printJ_parse : ∀ (v : Json) (f : Nat) (rest : List Char),
    fuelJ v ≤ f → numBoundary rest → parseJ f (printJ v ++ rest) = some (v, rest)
  | .null, f, rest, hf, hr => by
    obtain ⟨f', rfl⟩ : ∃ f', f = f' + 1 := ⟨f - 1, by simp [fuelJ] at hf; omega⟩
    rw [parseJ.eq_def]
    dsimp only [printJ, List.cons_append, List.nil_append]
    rw [if_pos rfl]
    rw [show ('u' :: 'l' :: 'l' :: rest : List Char) = ['u', 'l', 'l'] ++ rest from rfl,
      expect_append]
    rfl
  | .bool true, f, rest, hf, hr => by
    obtain ⟨f', rfl⟩ : ∃ f', f = f' + 1 := ⟨f - 1, by simp [fuelJ] at hf; omega⟩
    rw [parseJ.eq_def]
    dsimp only [printJ, List.cons_append, List.nil_append]
    rw [if_neg (by decide), if_pos rfl]
    rw [show ('r' :: 'u' :: 'e' :: rest : List Char) = ['r', 'u', 'e'] ++ rest from rfl,
      expect_append]
    rfl
  | .bool false, f, rest, hf, hr => by
    obtain ⟨f', rfl⟩ : ∃ f', f = f' + 1 := ⟨f - 1, by simp [fuelJ] at hf; omega⟩
    rw [parseJ.eq_def]
    dsimp only [printJ, List.cons_append, List.nil_append]
    rw [if_neg (by decide), if_neg (by decide), if_pos rfl]
    rw [show ('a' :: 'l' :: 's' :: 'e' :: rest : List Char) = ['a', 'l', 's', 'e'] ++ rest
      from rfl, expect_append]
    rfl
  | .num m e, f, rest, hf, hr => by
    obtain ⟨f', rfl⟩ : ∃ f', f = f' + 1 := ⟨f - 1, by simp [fuelJ] at hf; omega⟩
    rw [parseJ.eq_def]
    by_cases hm : m < 0
    · rw [show printJ (Json.num m e) = printNum m e from rfl, printNum, if_pos hm]
      dsimp only [List.cons_append]
      rw [if_neg (by decide), if_neg (by decide), if_neg (by decide), if_neg (by decide),
        if_neg (by decide), if_neg (by decide), if_pos rfl]
      rw [parseNumChars_print m.natAbs e rest hr]
      have hcast : -((m.natAbs : Int)) = m := by omega
      dsimp only [Option.map_some']
      rw [hcast]
    · rw [show printJ (Json.num m e) = printNum m e from rfl, printNum, if_neg hm]
      obtain ⟨c, t2, hct, hdig⟩ := printNatNum_head m.natAbs e
      obtain ⟨hn1, hn2, hn3, hn4, hn5, hn6, hn7, _⟩ := isDig_not_lit c hdig
      rw [hct, List.cons_append]
      dsimp only
      rw [if_neg hn1, if_neg hn2, if_neg hn3, if_neg hn4, if_neg hn5, if_neg hn6,
        if_neg hn7, if_pos hdig]
      rw [show c :: (t2 ++ rest) = printNatNum m.natAbs e ++ rest from by
        rw [hct, List.cons_append]]
      rw [parseNumChars_print m.natAbs e rest hr]
      have hcast : ((m.natAbs : Int)) = m := by omega
      dsimp only [Option.map_some']
      rw [hcast]
  | .str s, f, rest, hf, hr => by
    obtain ⟨f', rfl⟩ : ∃ f', f = f' + 1 := ⟨f - 1, by simp [fuelJ] at hf; omega⟩
    rw [parseJ.eq_def]
    dsimp only [printJ, List.cons_append, List.nil_append]
    rw [if_neg (by decide), if_neg (by decide), if_neg (by decide), if_pos rfl]
    rw [show (escape s.data ++ ['"']) ++ rest = escape s.data ++ '"' :: rest from by
      rw [List.append_assoc]; rfl]
    rw [parseStrBody_escape s.data rest]
    dsimp only [Option.map_some']
  | .arr xs, f, rest, hf, hr => by
    obtain ⟨f', rfl⟩ : ∃ f', f = f' + 1 := ⟨f - 1, by simp [fuelJ] at hf; omega⟩
    rw [parseJ.eq_def]
    dsimp only [printJ, List.cons_append, List.nil_append]
    rw [if_neg (by decide), if_neg (by decide), if_neg (by decide), if_neg (by decide),
      if_pos rfl]
    rw [printArrBody_parse xs f' rest (by simp [fuelJ] at hf; omega)]
    rfl
  | .obj xs, f, rest, hf, hr => by
    obtain ⟨f', rfl⟩ : ∃ f', f = f' + 1 := ⟨f - 1, by simp [fuelJ] at hf; omega⟩
    rw [parseJ.eq_def]
    dsimp only [printJ, List.cons_append, List.nil_append]
    rw [if_neg (by decide), if_neg (by decide), if_neg (by decide), if_neg (by decide),
      if_neg (by decide), if_pos rfl]
    rw [printObjBody_parse xs f' rest (by simp [fuelJ] at hf; omega)]
    rfl

theorem printArrBody_parse : ∀ (xs : JsonArr) (f : Nat) (rest : List Char),
    fuelA xs ≤ f → parseArrBody f (printArrBody xs ++ rest) = some (xs, rest)
  | .nil, f, rest, hf => by
    obtain ⟨f', rfl⟩ : ∃ f', f = f' + 1 := ⟨f - 1, by simp [fuelA] at hf; omega⟩
    rw [parseArrBody.eq_def]
    dsimp only [printArrBody, List.cons_append, List.nil_append]
    rw [if_pos rfl]
  | .cons h t, f, rest, hf => by
    obtain ⟨f', rfl⟩ : ∃ f', f = f' + 1 := ⟨f - 1, by simp [fuelA] at hf; omega⟩
    simp only [fuelA] at hf
    rw [parseArrBody.eq_def]
    rw [show printArrBody (JsonArr.cons h t) ++ rest =
      printJ h ++ (printArrTail t ++ rest) from by
      rw [printArrBody, List.append_assoc]]
    obtain ⟨c, t2, hct, hcne⟩ := printJ_head h
    rw [hct, List.cons_append]
    try dsimp only
    rw [if_neg hcne]
    rw [show c :: (t2 ++ (printArrTail t ++ rest)) =
      printJ h ++ (printArrTail t ++ rest) from by rw [hct, List.cons_append]]
    rw [printJ_parse h f' (printArrTail t ++ rest) (by omega)
      (printArrTail_numBoundary t rest)]
    try dsimp only
    rw [printArrTail_parse t f' rest (by omega)]
    rfl

theorem printArrTail_parse : ∀ (xs : JsonArr) (f : Nat) (rest : List Char),
    fuelA xs ≤ f → parseArrTail f (printArrTail xs ++ rest) = some (xs, rest)
  | .nil, f, rest, hf => by
    obtain ⟨f', rfl⟩ : ∃ f', f = f' + 1 := ⟨f - 1, by simp [fuelA] at hf; omega⟩
    rw [parseArrTail.eq_def]
    dsimp only [printArrTail, List.cons_append, List.nil_append]
    rw [if_pos rfl]
  | .cons h t, f, rest, hf => by
    obtain ⟨f', rfl⟩ : ∃ f', f = f' + 1 := ⟨f - 1, by simp [fuelA] at hf; omega⟩
    simp only [fuelA] at hf
    rw [parseArrTail.eq_def]
    rw [show printArrTail (JsonArr.cons h t) ++ rest =
      ',' :: ' ' :: (printJ h ++ (printArrTail t ++ rest)) from by
      rw [printArrTail]
      simp [List.append_assoc]]
    try dsimp only
    rw [if_neg (by decide), if_pos rfl]
    try dsimp only
    rw [if_pos rfl]
    rw [printJ_parse h f' (printArrTail t ++ rest) (by omega)
      (printArrTail_numBoundary t rest)]
    try dsimp only
    rw [printArrTail_parse t f' rest (by omega)]
    rfl

theorem printObjBody_parse : ∀ (xs : JsonObj) (f : Nat) (rest : List Char),
    fuelO xs ≤ f → parseObjBody f (printObjBody xs ++ rest) = some (xs, rest)
  | .nil, f, rest, hf => by
    obtain ⟨f', rfl⟩ : ∃ f', f = f' + 1 := ⟨f - 1, by simp [fuelO] at hf; omega⟩
    rw [parseObjBody.eq_def]
    dsimp only [printObjBody, List.cons_append, List.nil_append]
    rw [if_pos rfl]
  | .cons k v t, f, rest, hf => by
    obtain ⟨f', rfl⟩ : ∃ f', f = f' + 1 := ⟨f - 1, by simp [fuelO] at hf; omega⟩
    simp only [fuelO] at hf
    rw [parseObjBody.eq_def]
    rw [show printObjBody (JsonObj.cons k v t) ++ rest =
      '"' :: (escape k.data ++ '"' :: ':' :: ' ' :: (printJ v ++ (printObjTail t ++ rest)))
      from by
      rw [printObjBody]
      simp [List.append_assoc]]
    try dsimp only
    rw [if_neg (by decide), if_pos rfl]
    rw [parseStrBody_escape k.data (':' :: ' ' :: (printJ v ++ (printObjTail t ++ rest)))]
    try dsimp only
    rw [if_pos rfl]
    try dsimp only
    rw [if_pos rfl]
    rw [printJ_parse v f' (printObjTail t ++ rest) (by omega)
      (printObjTail_numBoundary t rest)]
    try dsimp only
    rw [printObjTail_parse t f' rest (by omega)]
    rfl

theorem printObjTail_parse : ∀ (xs : JsonObj) (f : Nat) (rest : List Char),
    fuelO xs ≤ f → parseObjTail f (printObjTail xs ++ rest) = some (xs, rest)
  | .nil, f, rest, hf => by
    obtain ⟨f', rfl⟩ : ∃ f', f = f' + 1 := ⟨f - 1, by simp [fuelO] at hf; omega⟩
    rw [parseObjTail.eq_def]
    dsimp only [printObjTail, List.cons_append, List.nil_append]
    rw [if_pos rfl]
  | .cons k v t, f, rest, hf => by
    obtain ⟨f', rfl⟩ : ∃ f', f = f' + 1 := ⟨f - 1, by simp [fuelO] at hf; omega⟩
    simp only [fuelO] at hf
    rw [parseObjTail.eq_def]
    rw [show printObjTail (JsonObj.cons k v t) ++ rest =
      ',' :: ' ' :: '"' ::
        (escape k.data ++ '"' :: ':' :: ' ' :: (printJ v ++ (printObjTail t ++ rest)))
      from by
      rw [printObjTail]
      simp [List.append_assoc]]
    try dsimp only
    rw [if_neg (by decide), if_pos rfl]
    try dsimp only
    rw [if_pos rfl]
    try dsimp only
    rw [if_pos rfl]
    rw [parseStrBody_escape k.data (':' :: ' ' :: (printJ v ++ (printObjTail t ++ rest)))]
    try dsimp only
    rw [if_pos rfl]
    try dsimp only
    rw [if_pos rfl]
    rw [printJ_parse v f' (printObjTail t ++ rest) (by omega)
      (printObjTail_numBoundary t rest)]
    try dsimp only
    rw [printObjTail_parse t f' rest (by omega)]
    rfl
end

theorem printNatNum_pos (n e : Nat) : 1 ≤ (printNatNum n e).length := by
  obtain ⟨c, t, hct, _⟩ := printNatNum_head n e
  rw [hct]
  simp

theorem printNum_pos (m : Int) (e : Nat) : 1 ≤ (printNum m e).length := by
  rw [printNum]
  split
  · simp
  · exact printNatNum_pos m.natAbs e

mutual
theorem fuelJ_le (v : Json) : fuelJ v + 1 ≤ 2 * (printJ v).length := by
  cases v with
  | null => decide
  | bool b => cases b <;> decide
  | num m e =>
    have := printNum_pos m e
    simp only [fuelJ, printJ]
    omega
  | str s =>
    simp only [fuelJ, printJ, List.length_cons, List.length_append]
    omega
  | arr xs =>
    have := fuelA_body_le xs
    simp only [fuelJ, printJ, List.length_cons]
    omega
  | obj xs =>
    have := fuelO_body_le xs
    simp only [fuelJ, printJ, List.length_cons]
    omega

theorem fuelA_body_le (xs : JsonArr) : fuelA xs ≤ 2 * (printArrBody xs).length := by
  cases xs with
  | nil => decide
  | cons h t =>
    have h1 := fuelJ_le h
    have h2 := fuelA_tail_le t
    simp only [fuelA, printArrBody, List.length_append]
    omega

theorem fuelA_tail_le (xs : JsonArr) : fuelA xs + 1 ≤ 2 * (printArrTail xs).length := by
  cases xs with
  | nil => decide
  | cons h t =>
    have h1 := fuelJ_le h
    have h2 := fuelA_tail_le t
    simp only [fuelA, printArrTail, List.length_cons, List.length_append]
    omega

theorem fuelO_body_le (xs : JsonObj) : fuelO xs ≤ 2 * (printObjBody xs).length := by
  cases xs with
  | nil => decide
  | cons k v t =>
    have h1 := fuelJ_le v
    have h2 := fuelO_tail_le t
    simp only [fuelO, printObjBody, List.length_cons, List.length_append]
    omega

theorem fuelO_tail_le (xs : JsonObj) : fuelO xs + 1 ≤ 2 * (printObjTail xs).length := by
  cases xs with
  | nil => decide
  | cons k v t =>
    have h1 := fuelJ_le v
    have h2 := fuelO_tail_le t
    simp only [fuelO, printObjTail, List.length_cons, List.length_append]
    omega
end

/-- `json.loads` recovers every serialized value from its file line. -/
theorem parseLine_printJ (v : Json) : parseLine (fileLine v) = some v := by
  rw [parseLine, fileLine]
  have h1 := fuelJ_le v
  have hlen : ((printJ v ++ ['\n']).length) = (printJ v).length + 1 := by simp
  rw [printJ_parse v (2 * (printJ v ++ ['\n']).length + 2) ['\n']
    (by rw [hlen]; omega) (by exact ⟨by decide, by decide⟩)]
  dsimp only
  rw [if_pos (by decide : ((['\n'] : List Char).all isWsChar) = true)]

/-- Claim C8: every alert emitted through the bus, as appended to the
newline-delimited file transport, parses back to a JSON value identical to
the emitted alert; in particular its `code`, `severity` and `data` fields
are reproduced exactly. -/
theorem alert_file_roundtrip (code severity source ts : String) (data : Json) :
    parseLine (fileLine (make_alert code severity source ts data)) =
      some (make_alert code severity source ts data) ∧
    alertField "code" (make_alert code severity source ts data) = some (.str code) ∧
    alertField "severity" (make_alert code severity source ts data) =
      some (.str severity) ∧
    alertField "data" (make_alert code severity source ts data) = some data := by
  refine ⟨parseLine_printJ _, ?_, ?_, ?_⟩
  · simp only [make_alert, alertField, objLookup]
    rw [if_neg (by decide), if_neg (by decide), if_pos trivial]
  · simp only [make_alert, alertField, objLookup]
    rw [if_neg (by decide), if_neg (by decide), if_neg (by decide), if_pos trivial]
  · simp only [make_alert, alertField, objLookup]
    rw [if_neg (by decide), if_neg (by decide), if_neg (by decide), if_neg (by decide),
      if_neg (by decide), if_pos trivial]

end NonceGuard
